import Mathlib

/-!
Verification of the stress-scoring and consultation-booking core of the
Mental-Stress-and-Workload-Management dashboard backend.

The Python source is shallowly embedded: SQLAlchemy rows become Lean
structures, database sessions become explicit `Db` values threaded through
each handler, `datetime` values become minutes-since-epoch naturals
(the epoch is taken to fall on a Monday, so `weekday t = t / 1440 % 7`
mirrors `datetime.weekday()`), Python floats become rationals, and
`HTTPException` becomes the error side of `Except`.  `HH:MM` display
strings are represented by their minute-of-day value (the formatting is
injective within a day).
-/

namespace MSWD

/-- `HTTPException(status_code, detail)` from FastAPI. -/
structure HErr where
  statusCode : Nat
  detail : String
deriving DecidableEq

/-- `models.UserRole`. -/
inductive UserRole where
  | admin | employee | supervisor | psychiatrist | hr_manager | consultant
deriving DecidableEq

/-- `models.TaskStatus`. -/
inductive TaskStatus where
  | pending | completed
deriving DecidableEq

/-- `models.Task` (the fields read by `calculate_workload_stress`):
`duration` is nullable minutes, `priority` a free string, `due_date`
nullable, `created_at` minutes since epoch. -/
structure Task where
  employeeId : Nat
  duration : Option Nat
  priority : String
  status : TaskStatus
  dueDate : Option Nat
  createdAt : Nat
deriving DecidableEq

/-- Index list of the positively worded PSS items, `positive_questions`
in `stress.py` (`[3, 4, 6, 7]`, 0-indexed). -/
def positiveQuestions : List Nat := [3, 4, 6, 7]

/-- Contribution of the answer at index `i` to the raw PSS total:
reverse-scored (`4 - answer`) on the positive questions, taken as-is
otherwise (the loop body of `calculate_pss_score`). -/
def pssContribution (i : Nat) (answer : Int) : Int :=
  if i ∈ positiveQuestions then 4 - answer else answer

/-- `stress.calculate_pss_score`: validates that there are exactly 10
answers, each in `[0, 4]`, then returns the raw total together with the
normalised score `(total / 40) * 10`. -/
def calculate_pss_score (answers : List Int) : Except HErr (Int × ℚ) :=
  if answers.length ≠ 10 then
    .error ⟨400, "Must provide exactly 10 answers"⟩
  else if answers.any (fun a => decide (¬ (0 ≤ a ∧ a ≤ 4))) then
    .error ⟨400, "Answers must be between 0 and 4"⟩
  else
    let totalScore := (answers.enum.map (fun p => pssContribution p.1 p.2)).sum
    .ok (totalScore, ((totalScore : ℚ) / 40) * 10)

/-- The tasks examined by `calculate_workload_stress`: all tasks of the
employee created in the preceding 24-hour window
(`Task.created_at >= now - timedelta(days=1)`). -/
def tasksInWindow (tasks : List Task) (employeeId now : Nat) : List Task :=
  tasks.filter (fun t => decide (t.employeeId = employeeId ∧ now - 1440 ≤ t.createdAt))

/-- `total_hours_worked`: sum over the window of `duration / 60`, skipping
tasks whose `duration` is `None` (or `0`, which Python treats as falsy). -/
def totalHoursWorked (tasks : List Task) : ℚ :=
  (tasks.map (fun t =>
    match t.duration with
    | some d => if d ≠ 0 then (d : ℚ) / 60 else 0
    | none => 0)).sum

/-- Total task minutes of a window, as a natural number. -/
def totalMinutes (tasks : List Task) : Nat :=
  (tasks.map (fun t => (t.duration.getD 0))).sum

/-- The base workload band of `calculate_workload_stress`:
`< 7.22 → 0.0`, `[7.23, 9.0] → 0.5`, `[9.01, 11.99] → 1.0`, else `2.0`. -/
def rawWorkloadScore (totalHours : ℚ) : ℚ :=
  if totalHours < 7.22 then 0
  else if 7.23 ≤ totalHours ∧ totalHours ≤ 9.0 then 0.5
  else if 9.01 ≤ totalHours ∧ totalHours ≤ 11.99 then 1
  else 2

/-- `stress.calculate_workload_stress` restricted to a given task window:
base band plus the three capped penalties, the total capped at `2.0`, and
the normalisation `(total / 2) * 10`.  Returns
`(normalized_workload_stress, total_hours_worked)`. -/
def calculate_workload_stress (tasks : List Task) (employeeId now : Nat) : ℚ × ℚ :=
  let window := tasksInWindow tasks employeeId now
  let totalHours := totalHoursWorked window
  let highPriorityTasks := (window.filter (fun t => t.priority == "high")).length
  let pendingTasks := (window.filter (fun t => t.status == TaskStatus.pending)).length
  let overdueTasks := (window.filter (fun t =>
    match t.dueDate with
    | some d => decide (d < now) && t.status == TaskStatus.pending
    | none => false)).length
  let priorityStress := min ((highPriorityTasks : ℚ) * 0.1) 0.5
  let overdueStress := min ((overdueTasks : ℚ) * 0.2) 0.5
  let pendingStress := min ((pendingTasks : ℚ) * 0.05) 0.3
  let totalWorkloadStress :=
    min (rawWorkloadScore totalHours + priorityStress + overdueStress + pendingStress) 2
  ((totalWorkloadStress / 2) * 10, totalHours)

/-- `stress.calculate_final_stress_score`: weighted blend
`pss * 0.7 + workload * 0.3` and the level thresholds
`≤ 3.0 → low`, `≤ 6.0 → moderate`, `≤ 8.5 → high`, else `critical`. -/
def calculate_final_stress_score (normalizedPss normalizedWorkload : ℚ) : ℚ × String :=
  let finalStressScore := normalizedPss * 0.7 + normalizedWorkload * 0.3
  let level :=
    if finalStressScore ≤ 3.0 then "low"
    else if finalStressScore ≤ 6.0 then "moderate"
    else if finalStressScore ≤ 8.5 then "high"
    else "critical"
  (finalStressScore, level)

/-- A stored `models.StressScore` row, restricted to the fields the
stress endpoints write.  The two sharing flags are nullable booleans
(`update_sharing_preferences` can store `None`). -/
structure StressScoreRec where
  employeeId : Nat
  score : ℚ
  level : String
  pssScore : Int
  normalizedPss : ℚ
  workloadStressScore : ℚ
  totalHoursWorked : ℚ
  shareWithSupervisor : Option Bool
  shareWithHr : Option Bool
deriving DecidableEq

/-- The roles admitted by `require_roles([employee, supervisor, hr_manager])`. -/
def bookerRole (role : UserRole) : Bool :=
  role == .employee || role == .supervisor || role == .hr_manager

/-- `stress.submit_stress_assessment`: score the answers and the task
window, then store the record; supervisors get `share_with_supervisor`
forced to `False`, HR managers get both flags forced to `False`. -/
def submit_stress_assessment (role : UserRole) (userId : Nat) (answers : List Int)
    (reqSup reqHr : Bool) (tasks : List Task) (now : Nat) :
    Except HErr StressScoreRec :=
  if ¬ bookerRole role then .error ⟨403, "Insufficient permissions"⟩
  else
    match calculate_pss_score answers with
    | .error e => .error e
    | .ok (pssScore, normalizedPss) =>
      let workload := calculate_workload_stress tasks userId now
      let final := calculate_final_stress_score normalizedPss workload.1
      let reqSup := if role = .supervisor then false else reqSup
      let reqSup := if role = .hr_manager then false else reqSup
      let reqHr := if role = .hr_manager then false else reqHr
      .ok { employeeId := userId, score := final.1, level := final.2,
            pssScore := pssScore, normalizedPss := normalizedPss,
            workloadStressScore := workload.1, totalHoursWorked := workload.2,
            shareWithSupervisor := some reqSup, shareWithHr := some reqHr }

/-- `stress.update_sharing_preferences`: overwrite the stored sharing
flags with the requested (nullable) values, after forcing
`share_with_supervisor = False` for supervisors and both flags `False`
for HR managers. -/
def update_sharing_preferences (role : UserRole) (reqSup reqHr : Option Bool)
    (existing : Option StressScoreRec) : Except HErr StressScoreRec :=
  if ¬ bookerRole role then .error ⟨403, "Insufficient permissions"⟩
  else
    match existing with
    | none => .error ⟨404, "No stress assessment found"⟩
    | some s =>
      let reqSup := if role = .supervisor then some false else reqSup
      let reqSup := if role = .hr_manager then some false else reqSup
      let reqHr := if role = .hr_manager then some false else reqHr
      .ok { s with shareWithSupervisor := reqSup, shareWithHr := reqHr }

/-! ### The booking data model -/

/-- `models.BookingStatus`. -/
inductive BookingStatus where
  | pending | approved | rejected | completed | cancelled
deriving DecidableEq

/-- `models.ConsultantBooking`, with `booking_date` in minutes since
epoch. -/
structure Booking where
  id : Nat
  consultantId : Nat
  employeeId : Nat
  bookedById : Nat
  bookingDate : Nat
  durationMinutes : Nat
  status : BookingStatus
  notes : Option String
  rejectionReason : Option String
deriving DecidableEq

/-- `models.Consultant` (the fields the booking flow reads). -/
structure ConsultantRec where
  id : Nat
  name : String
deriving DecidableEq

/-- `models.User` (the fields the booking flow reads). -/
structure UserRec where
  id : Nat
  name : String
  role : UserRole
deriving DecidableEq

/-- `models.ConsultantAvailability`: a weekly recurring rule;
`startTime`/`endTime` are minutes of day. -/
structure AvailabilityRec where
  consultantId : Nat
  dayOfWeek : Nat
  startTime : Nat
  endTime : Nat
  isAvailable : Bool
deriving DecidableEq

/-- The relational store visible to the booking handlers. -/
structure Db where
  users : List UserRec
  consultants : List ConsultantRec
  availabilities : List AvailabilityRec
  bookings : List Booking
  nextBookingId : Nat
deriving DecidableEq

/-- Calendar day of a minutes-since-epoch timestamp. -/
def dateOf (t : Nat) : Nat := t / 1440

/-- Minute of day of a timestamp (`datetime.time()`). -/
def timeOfDay (t : Nat) : Nat := t % 1440

/-- `datetime.weekday()` with the epoch taken to fall on a Monday. -/
def weekday (t : Nat) : Nat := dateOf t % 7

/-- `db.query(Consultant).filter(Consultant.id == cid).first()`. -/
def findConsultant (db : Db) (cid : Nat) : Option ConsultantRec :=
  db.consultants.find? (fun c => c.id == cid)

/-- `db.query(Consultant).filter(Consultant.name == user.name).first()` —
the name-join used by the psychiatrist endpoints. -/
def findConsultantByName (db : Db) (userName : String) : Option ConsultantRec :=
  db.consultants.find? (fun c => c.name == userName)

/-- `db.query(User).filter(User.id == uid).first()`. -/
def findUser (db : Db) (uid : Nat) : Option UserRec :=
  db.users.find? (fun u => u.id == uid)

/-- Append a freshly created `ConsultantBooking` row. -/
def insertBooking (db : Db) (b : Booking) : Db :=
  { db with bookings := db.bookings ++ [b], nextBookingId := db.nextBookingId + 1 }

/-- Mutate in place the row with the given id (the ORM identity map). -/
def updateRow (db : Db) (bid : Nat) (f : Booking → Booking) : Db :=
  { db with bookings := db.bookings.map (fun r => if r.id = bid then f r else r) }

/-- The weekly-availability membership test of `consultant.book_consultation`
(and `book_for_employee` / `update_booking`): some rule of the consultant
for that weekday is available with `start_time <= t <= end_time`
(both bounds inclusive). -/
def availabilityCovers (db : Db) (cid : Nat) (bookingDate : Nat) : Bool :=
  (db.availabilities.find? (fun a =>
    a.consultantId == cid && a.dayOfWeek == weekday bookingDate &&
    a.isAvailable && a.startTime ≤ timeOfDay bookingDate &&
    timeOfDay bookingDate ≤ a.endTime)).isSome

/-- `psychiatrist.book_psychiatrist` (`POST /psychiatrist/book`):
404 on a missing psychiatrist, 400 on a past date, 400 when the exact
`(consultant_id, booking_date)` already has a pending or approved
booking, otherwise a fresh 30-minute pending booking. -/
def book_psychiatrist (db : Db) (user : UserRec) (psychiatristId bookingDate : Nat)
    (notes : Option String) (now : Nat) : Except HErr (Db × Nat) :=
  if ¬ bookerRole user.role then .error ⟨403, "Insufficient permissions"⟩
  else if (findConsultant db psychiatristId).isNone then
    .error ⟨404, "Psychiatrist not found"⟩
  else if bookingDate ≤ now then
    .error ⟨400, "Cannot book sessions in the past or current time"⟩
  else if (db.bookings.find? (fun b =>
      b.consultantId == psychiatristId && b.bookingDate == bookingDate &&
      (b.status == BookingStatus.pending || b.status == BookingStatus.approved))).isSome then
    .error ⟨400, "This time slot is already booked"⟩
  else
    let b : Booking :=
      { id := db.nextBookingId, consultantId := psychiatristId,
        employeeId := user.id, bookedById := user.id, bookingDate := bookingDate,
        durationMinutes := 30, status := .pending, notes := notes,
        rejectionReason := none }
    .ok (insertBooking db b, b.id)

/-- `psychiatrist.book_psychiatrist_for_employee`
(`POST /psychiatrist/book-for-employee`): like `book_psychiatrist` but on
behalf of an employee — and with no past-date validation. -/
def book_psychiatrist_for_employee (db : Db) (user : UserRec)
    (employeeId psychiatristId bookingDate : Nat) (notes : Option String) :
    Except HErr (Db × Nat) :=
  if ¬ (user.role == .supervisor || user.role == .hr_manager) then
    .error ⟨403, "Insufficient permissions"⟩
  else if (findUser db employeeId).isNone then
    .error ⟨404, "Employee not found"⟩
  else if (findConsultant db psychiatristId).isNone then
    .error ⟨404, "Psychiatrist not found"⟩
  else if (db.bookings.find? (fun b =>
      b.consultantId == psychiatristId && b.bookingDate == bookingDate &&
      (b.status == BookingStatus.pending || b.status == BookingStatus.approved))).isSome then
    .error ⟨400, "This time slot is already booked"⟩
  else
    let b : Booking :=
      { id := db.nextBookingId, consultantId := psychiatristId,
        employeeId := employeeId, bookedById := user.id, bookingDate := bookingDate,
        durationMinutes := 30, status := .pending, notes := notes,
        rejectionReason := none }
    .ok (insertBooking db b, b.id)

/-- `consultant.book_consultation` (`POST /consultant/book`): 404 on a
missing consultant, 400 on a past date, 400 when no availability rule
covers the requested time, and 400 when the exact slot already has a
booking with status pending — approved bookings do not block here. -/
def book_consultation (db : Db) (user : UserRec) (consultantId bookingDate : Nat)
    (durationMinutes : Nat) (notes : Option String) (now : Nat) :
    Except HErr (Db × Nat) :=
  if ¬ bookerRole user.role then .error ⟨403, "Insufficient permissions"⟩
  else if (findConsultant db consultantId).isNone then
    .error ⟨404, "Consultant not found"⟩
  else if bookingDate ≤ now then
    .error ⟨400, "Booking date must be in the future"⟩
  else if ¬ availabilityCovers db consultantId bookingDate then
    .error ⟨400, "Consultant is not available at this time"⟩
  else if (db.bookings.find? (fun b =>
      b.consultantId == consultantId && b.bookingDate == bookingDate &&
      b.status == BookingStatus.pending)).isSome then
    .error ⟨400, "This time slot is already booked"⟩
  else
    let b : Booking :=
      { id := db.nextBookingId, consultantId := consultantId,
        employeeId := user.id, bookedById := user.id, bookingDate := bookingDate,
        durationMinutes := durationMinutes, status := .pending, notes := notes,
        rejectionReason := none }
    .ok (insertBooking db b, b.id)

/-- `consultant.book_for_employee` (`POST /consultant/book-for-employee`):
`book_consultation` on behalf of an employee, same checks (the conflict
check again only blocks pending bookings). -/
def book_for_employee (db : Db) (user : UserRec)
    (employeeId consultantId bookingDate durationMinutes : Nat)
    (notes : Option String) (now : Nat) : Except HErr (Db × Nat) :=
  if ¬ (user.role == .supervisor || user.role == .hr_manager) then
    .error ⟨403, "Insufficient permissions"⟩
  else if (findUser db employeeId).isNone then
    .error ⟨404, "Employee not found"⟩
  else if (findConsultant db consultantId).isNone then
    .error ⟨404, "Consultant not found"⟩
  else if bookingDate ≤ now then
    .error ⟨400, "Booking date must be in the future"⟩
  else if ¬ availabilityCovers db consultantId bookingDate then
    .error ⟨400, "Consultant is not available at this time"⟩
  else if (db.bookings.find? (fun b =>
      b.consultantId == consultantId && b.bookingDate == bookingDate &&
      b.status == BookingStatus.pending)).isSome then
    .error ⟨400, "This time slot is already booked"⟩
  else
    let b : Booking :=
      { id := db.nextBookingId, consultantId := consultantId,
        employeeId := employeeId, bookedById := user.id, bookingDate := bookingDate,
        durationMinutes := durationMinutes, status := .pending, notes := notes,
        rejectionReason := none }
    .ok (insertBooking db b, b.id)

/-- The literal rejection reason written by the conflict sweep in
`approve_booking_with_conflict_resolution` (plain ASCII hyphen). -/
def autoCancelReason : String :=
  "Automatically cancelled - another request was approved for this time slot"

/-- Whether a row is one of the conflicting siblings collected in step 3
of the approval flow: same consultant, same exact `booking_date`, status
pending, and a different row id. -/
def conflictsWith (cid bookingDate bid : Nat) (r : Booking) : Bool :=
  r.consultantId == cid && r.bookingDate == bookingDate &&
  r.status == BookingStatus.pending && r.id != bid

/-- `psychiatrist.approve_booking_with_conflict_resolution`
(`PUT /psychiatrist/bookings/{id}/approve`): resolves the consultant by
the caller's display name, requires the target to be pending; on
`status = "approved"` it cancels every other pending booking for the same
`(consultant_id, booking_date)` (setting `rejection_reason`) and approves
the target, returning the number of cancelled conflicts; on
`status = "rejected"` it requires a non-empty reason. -/
def approve_booking (db : Db) (user : UserRec) (bookingId : Nat)
    (reqStatus : String) (reqReason : Option String) : Except HErr (Db × Nat) :=
  if user.role ≠ .psychiatrist then .error ⟨403, "Insufficient permissions"⟩
  else
    match findConsultantByName db user.name with
    | none => .error ⟨404, "Psychiatrist profile not found"⟩
    | some c =>
      match db.bookings.find? (fun b => b.id == bookingId && b.consultantId == c.id) with
      | none => .error ⟨404, "Booking not found"⟩
      | some b =>
        if b.status ≠ .pending then .error ⟨400, "Booking is not pending approval"⟩
        else if reqStatus = "approved" then
          let conflicting := db.bookings.filter (conflictsWith c.id b.bookingDate bookingId)
          let db1 : Db := { db with bookings := db.bookings.map (fun r =>
            if conflictsWith c.id b.bookingDate bookingId r then
              { r with status := .cancelled, rejectionReason := some autoCancelReason }
            else r) }
          let db2 := updateRow db1 bookingId (fun x => { x with status := .approved })
          .ok (db2, conflicting.length)
        else if reqStatus = "rejected" then
          if reqReason = none ∨ reqReason = some "" then
            .error ⟨400, "Rejection reason is required"⟩
          else
            .ok (updateRow db bookingId
              (fun x => { x with status := .rejected, rejectionReason := reqReason }), 0)
        else .error ⟨400, "Invalid status. Use 'approved' or 'rejected'"⟩

/-- `psychiatrist.update_psychiatrist_booking`
(`PUT /psychiatrist/bookings/{id}`): only the owning employee, only while
pending; a new `booking_date` is stored with no past-date, availability
or conflict check of any kind. -/
def update_psychiatrist_booking (db : Db) (user : UserRec) (bookingId : Nat)
    (newDate : Option Nat) (newNotes : Option String) : Except HErr Db :=
  if ¬ bookerRole user.role then .error ⟨403, "Insufficient permissions"⟩
  else
    match db.bookings.find? (fun b => b.id == bookingId && b.employeeId == user.id) with
    | none => .error ⟨404, "Booking not found"⟩
    | some b =>
      if b.status ≠ .pending then .error ⟨400, "Can only update pending bookings"⟩
      else
        .ok (updateRow db bookingId (fun x =>
          let x := match newDate with | some d => { x with bookingDate := d } | none => x
          match newNotes with | some n => { x with notes := some n } | none => x))

/-- `consultant.update_booking` (`PUT /consultant/bookings/{id}`): only
the owning employee, only while the booking is still in the future; an
optional consultant change is checked for existence only, while a date
change is checked against the clock, the availability template and — for
pending bookings other than itself — the exact-slot conflict. -/
def update_booking (db : Db) (user : UserRec) (bookingId : Nat)
    (newConsultantId newDate newDuration : Option Nat) (newNotes : Option String)
    (now : Nat) : Except HErr Db :=
  if ¬ bookerRole user.role then .error ⟨403, "Insufficient permissions"⟩
  else
    match db.bookings.find? (fun b => b.id == bookingId && b.employeeId == user.id) with
    | none => .error ⟨404, "Booking not found"⟩
    | some b =>
      if b.bookingDate ≤ now then .error ⟨400, "Cannot update past bookings"⟩
      else
        let step1 : Except HErr Booking :=
          match newConsultantId with
          | none => .ok b
          | some cid =>
            if (findConsultant db cid).isNone then .error ⟨404, "Consultant not found"⟩
            else .ok { b with consultantId := cid }
        match step1 with
        | .error e => .error e
        | .ok b1 =>
          let step2 : Except HErr Booking :=
            match newDate with
            | none => .ok b1
            | some d =>
              if d ≤ now then .error ⟨400, "Booking date must be in the future"⟩
              else if ¬ availabilityCovers db b1.consultantId d then
                .error ⟨400, "Consultant is not available at this time"⟩
              else if (db.bookings.find? (fun r =>
                  r.consultantId == b1.consultantId && r.bookingDate == d &&
                  r.status == BookingStatus.pending && r.id != bookingId)).isSome then
                .error ⟨400, "This time slot is already booked"⟩
              else .ok { b1 with bookingDate := d }
          match step2 with
          | .error e => .error e
          | .ok b2 =>
            let b3 := match newDuration with
              | some m => { b2 with durationMinutes := m }
              | none => b2
            let b4 := match newNotes with
              | some n => { b3 with notes := some n }
              | none => b3
            .ok (updateRow db bookingId (fun _ => b4))

/-- `psychiatrist.cancel_psychiatrist_booking`
(`DELETE /psychiatrist/bookings/{id}`): only the owning employee; the
sole state guard is that completed bookings cannot be cancelled — past
dates, rejected and already-cancelled bookings all go through. -/
def cancel_psychiatrist_booking (db : Db) (user : UserRec) (bookingId : Nat) :
    Except HErr Db :=
  if ¬ bookerRole user.role then .error ⟨403, "Insufficient permissions"⟩
  else
    match db.bookings.find? (fun b => b.id == bookingId && b.employeeId == user.id) with
    | none => .error ⟨404, "Booking not found"⟩
    | some b =>
      if b.status = .completed then .error ⟨400, "Cannot cancel completed booking"⟩
      else .ok (updateRow db bookingId (fun x => { x with status := .cancelled }))

/-- `consultant.cancel_booking` (`DELETE /consultant/bookings/{id}`):
only the owning employee; the sole guard is that the booking date is
still in the future — the status is not inspected at all. -/
def cancel_booking (db : Db) (user : UserRec) (bookingId : Nat) (now : Nat) :
    Except HErr Db :=
  if ¬ bookerRole user.role then .error ⟨403, "Insufficient permissions"⟩
  else
    match db.bookings.find? (fun b => b.id == bookingId && b.employeeId == user.id) with
    | none => .error ⟨404, "Booking not found"⟩
    | some b =>
      if b.bookingDate ≤ now then .error ⟨400, "Cannot cancel past bookings"⟩
      else .ok (updateRow db bookingId (fun x => { x with status := .cancelled }))

/-- `psychiatrist.complete_session` (`PUT /psychiatrist/bookings/{id}/complete`):
consultant resolved by caller name, only approved sessions complete. -/
def complete_session (db : Db) (user : UserRec) (bookingId : Nat) : Except HErr Db :=
  if user.role ≠ .psychiatrist then .error ⟨403, "Insufficient permissions"⟩
  else
    match findConsultantByName db user.name with
    | none => .error ⟨404, "Psychiatrist profile not found"⟩
    | some c =>
      match db.bookings.find? (fun b => b.id == bookingId && b.consultantId == c.id) with
      | none => .error ⟨404, "Booking not found"⟩
      | some b =>
        if b.status ≠ .approved then .error ⟨400, "Can only complete approved sessions"⟩
        else .ok (updateRow db bookingId (fun x => { x with status := .completed }))

/-! ### Availability calculators -/

/-- The 30-minute slot starts generated from `current` while the slot end
stays within `stop` — the datetime-based loop of
`hr_consultants.get_consultant_available_times`
(`while current_time + 30min <= end_dt`).  Plain `datetime` arithmetic
never wraps, so the loop always terminates; the fuel argument is always
called with enough budget for the whole window. -/
def strideSlots : Nat → Nat → Nat → List Nat
  | 0, _, _ => []
  | fuel + 1, current, stop =>
    if current + 30 ≤ stop then current :: strideSlots fuel (current + 30) stop
    else []

/-- The 30-minute stride with the `datetime.combine(...).time()`
wrap-around used by `hr_psychiatrists.get_psychiatrist_available_times`:
collect minute-of-day values from `current` while `current < stop`,
stepping by 30 modulo one day.  Because of the wrap-around the Python
loop can cycle forever, so the embedding carries explicit fuel (96 steps,
two full days, more than any terminating run needs). -/
def strideModSlots : Nat → Nat → Nat → List Nat
  | 0, _, _ => []
  | fuel + 1, current, stop =>
    if current < stop then current :: strideModSlots fuel ((current + 30) % 1440) stop
    else []

/-- Half-open overlap between the slot `[slotStart, slotEnd)` and a
booking interval `[booking_date, booking_date + duration_minutes)`:
`slot_start < booking_end and slot_end > booking_start`. -/
def overlapsBooking (slotStart slotEnd : Nat) (b : Booking) : Bool :=
  slotStart < b.bookingDate + b.durationMinutes && b.bookingDate < slotEnd

/-- The bookings fetched by `get_consultant_available_times`: same
consultant, same calendar date, and status pending only. -/
def consultantDayPendings (db : Db) (cid targetDate : Nat) : List Booking :=
  db.bookings.filter (fun b =>
    b.consultantId == cid && b.status == BookingStatus.pending &&
    dateOf b.bookingDate == targetDate)

/-- The availability rules fetched for `(consultant, weekday of date)`. -/
def dayAvailabilities (db : Db) (cid targetDate : Nat) : List AvailabilityRec :=
  db.availabilities.filter (fun a =>
    a.consultantId == cid && a.dayOfWeek == targetDate % 7 && a.isAvailable)

/-- The slot list computed by `hr_consultants.get_consultant_available_times`:
for each availability window, 30-minute slots whose end stays inside the
window, kept when no fetched (pending) booking overlaps them half-open.
Slot bounds are absolute minutes since epoch; the route formats them as
`HH:MM` strings. -/
def consultantSlots (db : Db) (cid targetDate : Nat) : List (Nat × Nat) :=
  let fetched := consultantDayPendings db cid targetDate
  let dayStart := targetDate * 1440
  (dayAvailabilities db cid targetDate).flatMap (fun a =>
    ((strideSlots ((a.endTime - a.startTime) / 30 + 1) (dayStart + a.startTime)
        (dayStart + a.endTime)).filter (fun s =>
      !(fetched.any (overlapsBooking s (s + 30))))).map (fun s => (s, s + 30)))

/-- `hr_consultants.get_consultant_available_times`
(`GET /hr/consultants/{id}/available-times`). -/
def get_consultant_available_times (db : Db) (cid targetDate : Nat) :
    Except HErr (List (Nat × Nat)) :=
  if (findConsultant db cid).isNone then .error ⟨404, "Consultant not found"⟩
  else .ok (consultantSlots db cid targetDate)

/-- The bookings fetched by `get_psychiatrist_available_times`: same
consultant, same calendar date, status pending or approved. -/
def psychiatristDayBookings (db : Db) (cid targetDate : Nat) : List Booking :=
  db.bookings.filter (fun b =>
    b.consultantId == cid && dateOf b.bookingDate == targetDate &&
    (b.status == BookingStatus.pending || b.status == BookingStatus.approved))

/-- The `booked_slots` set of `get_psychiatrist_available_times`: the
30-minute stride points covering each fetched booking's duration,
starting at the booking's minute of day. -/
def bookedSlotTimes (bs : List Booking) : List Nat :=
  bs.flatMap (fun b =>
    strideModSlots 96 (timeOfDay b.bookingDate)
      ((timeOfDay b.bookingDate + b.durationMinutes) % 1440))

/-- The slot list computed by `hr_psychiatrists.get_psychiatrist_available_times`:
minute-of-day stride points of each availability window, kept when the
start time is not in `booked_slots` — a start-time membership test, not
an interval-overlap test. -/
def psychiatristSlots (db : Db) (cid targetDate : Nat) : List Nat :=
  let booked := bookedSlotTimes (psychiatristDayBookings db cid targetDate)
  (dayAvailabilities db cid targetDate).flatMap (fun a =>
    (strideModSlots 96 a.startTime a.endTime).filter (fun t => !(booked.contains t)))

/-- `hr_psychiatrists.get_psychiatrist_available_times`
(`GET /hr/psychiatrists/{id}/available-times`). -/
def get_psychiatrist_available_times (db : Db) (cid targetDate : Nat) :
    Except HErr (List Nat) :=
  if (findConsultant db cid).isNone then .error ⟨404, "Psychiatrist not found"⟩
  else .ok (psychiatristSlots db cid targetDate)

/-! ### The operations as a transition system -/

/-- One call to a booking endpoint, with the caller, its arguments and the
wall-clock time of the call. -/
inductive Op where
  | psychBook (userId psychiatristId bookingDate : Nat)
      (notes : Option String) (now : Nat)
  | psychBookForEmployee (userId employeeId psychiatristId bookingDate : Nat)
      (notes : Option String)
  | consultBook (userId consultantId bookingDate durationMinutes : Nat)
      (notes : Option String) (now : Nat)
  | consultBookForEmployee (userId employeeId consultantId bookingDate durationMinutes : Nat)
      (notes : Option String) (now : Nat)
  | approve (userId bookingId : Nat) (reqStatus : String) (reqReason : Option String)
  | psychUpdate (userId bookingId : Nat) (newDate : Option Nat) (newNotes : Option String)
  | consultUpdate (userId bookingId : Nat) (newConsultantId newDate newDuration : Option Nat)
      (newNotes : Option String) (now : Nat)
  | psychCancel (userId bookingId : Nat)
  | consultCancel (userId bookingId : Nat) (now : Nat)
  | complete (userId bookingId : Nat)
deriving DecidableEq

/-- The two `PUT .../bookings/{id}` update endpoints. -/
def Op.isBookingUpdate : Op → Bool
  | .psychUpdate _ _ _ _ => true
  | .consultUpdate _ _ _ _ _ _ _ => true
  | _ => false

/-- Run one endpoint call against the store.  A raised `HTTPException`
aborts the request before the commit, leaving the store unchanged; an
unknown caller fails authentication the same way. -/
def applyOp (db : Db) (op : Op) : Db :=
  match op with
  | .psychBook uid pid d notes now =>
    match findUser db uid with
    | none => db
    | some u =>
      match book_psychiatrist db u pid d notes now with
      | .ok p => p.1
      | .error _ => db
  | .psychBookForEmployee uid eid pid d notes =>
    match findUser db uid with
    | none => db
    | some u =>
      match book_psychiatrist_for_employee db u eid pid d notes with
      | .ok p => p.1
      | .error _ => db
  | .consultBook uid cid d dur notes now =>
    match findUser db uid with
    | none => db
    | some u =>
      match book_consultation db u cid d dur notes now with
      | .ok p => p.1
      | .error _ => db
  | .consultBookForEmployee uid eid cid d dur notes now =>
    match findUser db uid with
    | none => db
    | some u =>
      match book_for_employee db u eid cid d dur notes now with
      | .ok p => p.1
      | .error _ => db
  | .approve uid bid st reason =>
    match findUser db uid with
    | none => db
    | some u =>
      match approve_booking db u bid st reason with
      | .ok p => p.1
      | .error _ => db
  | .psychUpdate uid bid nd nn =>
    match findUser db uid with
    | none => db
    | some u =>
      match update_psychiatrist_booking db u bid nd nn with
      | .ok d2 => d2
      | .error _ => db
  | .consultUpdate uid bid nc nd ndur nn now =>
    match findUser db uid with
    | none => db
    | some u =>
      match update_booking db u bid nc nd ndur nn now with
      | .ok d2 => d2
      | .error _ => db
  | .psychCancel uid bid =>
    match findUser db uid with
    | none => db
    | some u =>
      match cancel_psychiatrist_booking db u bid with
      | .ok d2 => d2
      | .error _ => db
  | .consultCancel uid bid now =>
    match findUser db uid with
    | none => db
    | some u =>
      match cancel_booking db u bid now with
      | .ok d2 => d2
      | .error _ => db
  | .complete uid bid =>
    match findUser db uid with
    | none => db
    | some u =>
      match complete_session db u bid with
      | .ok d2 => d2
      | .error _ => db

/-- Run a sequence of endpoint calls. -/
def applyOps (db : Db) (ops : List Op) : Db :=
  ops.foldl applyOp db

/-- The slot-integrity constraint of the data model: at most one booking
row may occupy a given `(consultant_id, exact booking_date)` pair while
pending. -/
def pendingAtMostOne (db : Db) : Prop :=
  ∀ b1 ∈ db.bookings, ∀ b2 ∈ db.bookings,
    b1.status = BookingStatus.pending → b2.status = BookingStatus.pending →
    b1.consultantId = b2.consultantId → b1.bookingDate = b2.bookingDate → b1 = b2

instance (db : Db) : Decidable (pendingAtMostOne db) := by
  unfold pendingAtMostOne; infer_instance

/-! ### Arithmetic bridges for the workload bands -/

lemma div60_lt_cent (m p : ℕ) :
    ((m : ℚ) / 60 < (p : ℚ) / 100) ↔ m * 100 < p * 60 := by
  rw [div_lt_div_iff (by norm_num) (by norm_num)]
  exact_mod_cast Iff.rfl

lemma cent_le_div60 (p m : ℕ) :
    ((p : ℚ) / 100 ≤ (m : ℚ) / 60) ↔ p * 60 ≤ m * 100 := by
  rw [div_le_div_iff (by norm_num) (by norm_num)]
  exact_mod_cast Iff.rfl

lemma div60_le_cent (m p : ℕ) :
    ((m : ℚ) / 60 ≤ (p : ℚ) / 100) ↔ m * 100 ≤ p * 60 := by
  rw [div_le_div_iff (by norm_num) (by norm_num)]
  exact_mod_cast Iff.rfl

lemma totalHoursWorked_eq (tasks : List Task) :
    totalHoursWorked tasks = (totalMinutes tasks : ℚ) / 60 := by
  induction tasks with
  | nil => simp [totalHoursWorked, totalMinutes]
  | cons t ts ih =>
    unfold totalHoursWorked totalMinutes at ih ⊢
    simp only [List.map_cons, List.sum_cons]
    rw [ih]
    push_cast
    rw [add_div]
    congr 1
    cases h : t.duration with
    | none => simp
    | some d =>
      by_cases hd : d = 0
      · subst hd; simp
      · simp [hd]

/-- Task durations are whole minutes, so the band boundaries of
`rawWorkloadScore` reduce to integer cut points — in particular the
gaps `(7.22, 7.23)`, `(9.00, 9.01)` and `(11.99, 12.0)` between the
written bands are unreachable and the trailing `else` fires exactly at
`>= 12.0`. -/
lemma rawWorkloadScore_nat (m : ℕ) :
    rawWorkloadScore ((m : ℚ) / 60) =
      if m ≤ 433 then 0 else if m ≤ 540 then 0.5 else if m ≤ 719 then 1 else 2 := by
  have b1 : ((m : ℚ) / 60 < 7.22) ↔ m * 100 < 722 * 60 := by
    rw [show (7.22 : ℚ) = ((722 : ℕ) : ℚ) / 100 by norm_num]
    exact div60_lt_cent m 722
  have b2 : ((7.23 : ℚ) ≤ (m : ℚ) / 60) ↔ 723 * 60 ≤ m * 100 := by
    rw [show (7.23 : ℚ) = ((723 : ℕ) : ℚ) / 100 by norm_num]
    exact cent_le_div60 723 m
  have b3 : ((m : ℚ) / 60 ≤ 9.0) ↔ m * 100 ≤ 900 * 60 := by
    rw [show (9.0 : ℚ) = ((900 : ℕ) : ℚ) / 100 by norm_num]
    exact div60_le_cent m 900
  have b4 : ((9.01 : ℚ) ≤ (m : ℚ) / 60) ↔ 901 * 60 ≤ m * 100 := by
    rw [show (9.01 : ℚ) = ((901 : ℕ) : ℚ) / 100 by norm_num]
    exact cent_le_div60 901 m
  have b5 : ((m : ℚ) / 60 ≤ 11.99) ↔ m * 100 ≤ 1199 * 60 := by
    rw [show (11.99 : ℚ) = ((1199 : ℕ) : ℚ) / 100 by norm_num]
    exact div60_le_cent m 1199
  unfold rawWorkloadScore
  simp only [b1, b2, b3, b4, b5]
  split_ifs <;> first | rfl | omega

/-- Claim C5: over any task window, the base workload band computed from
`total_hours = total minutes / 60` is `0.0` exactly below `7.22` hours,
`0.5` exactly on `[7.23, 9.00]`, `1.0` exactly on `[9.01, 11.99]` and
`2.0` exactly from `12.0` on (whole-minute durations make the written
band gaps unreachable); in particular exactly `9.00` hours maps
to `0.5`. -/
theorem workload_base_bands (tasks : List Task) :
    (rawWorkloadScore (totalHoursWorked tasks) = 0 ↔
      totalHoursWorked tasks < 7.22) ∧
    (rawWorkloadScore (totalHoursWorked tasks) = 0.5 ↔
      7.23 ≤ totalHoursWorked tasks ∧ totalHoursWorked tasks ≤ 9.0) ∧
    (rawWorkloadScore (totalHoursWorked tasks) = 1 ↔
      9.01 ≤ totalHoursWorked tasks ∧ totalHoursWorked tasks ≤ 11.99) ∧
    (rawWorkloadScore (totalHoursWorked tasks) = 2 ↔
      12.0 ≤ totalHoursWorked tasks) ∧
    rawWorkloadScore 9 = 0.5 := by
  have hq := totalHoursWorked_eq tasks
  rw [hq, rawWorkloadScore_nat]
  set m := totalMinutes tasks with hm
  have b1 : ((m : ℚ) / 60 < 7.22) ↔ m * 100 < 722 * 60 := by
    rw [show (7.22 : ℚ) = ((722 : ℕ) : ℚ) / 100 by norm_num]
    exact div60_lt_cent m 722
  have b2 : ((7.23 : ℚ) ≤ (m : ℚ) / 60) ↔ 723 * 60 ≤ m * 100 := by
    rw [show (7.23 : ℚ) = ((723 : ℕ) : ℚ) / 100 by norm_num]
    exact cent_le_div60 723 m
  have b3 : ((m : ℚ) / 60 ≤ 9.0) ↔ m * 100 ≤ 900 * 60 := by
    rw [show (9.0 : ℚ) = ((900 : ℕ) : ℚ) / 100 by norm_num]
    exact div60_le_cent m 900
  have b4 : ((9.01 : ℚ) ≤ (m : ℚ) / 60) ↔ 901 * 60 ≤ m * 100 := by
    rw [show (9.01 : ℚ) = ((901 : ℕ) : ℚ) / 100 by norm_num]
    exact cent_le_div60 901 m
  have b5 : ((m : ℚ) / 60 ≤ 11.99) ↔ m * 100 ≤ 1199 * 60 := by
    rw [show (11.99 : ℚ) = ((1199 : ℕ) : ℚ) / 100 by norm_num]
    exact div60_le_cent m 1199
  have b6 : ((12.0 : ℚ) ≤ (m : ℚ) / 60) ↔ 1200 * 60 ≤ m * 100 := by
    rw [show (12.0 : ℚ) = ((1200 : ℕ) : ℚ) / 100 by norm_num]
    exact cent_le_div60 1200 m
  refine ⟨?_, ?_, ?_, ?_, by norm_num [rawWorkloadScore]⟩ <;>
    simp only [b1, b2, b3, b4, b5, b6] <;>
    split_ifs <;> norm_num <;> omega

/-- Claim C7: the final stress score is the weighted blend
`pss * 0.7 + workload * 0.3` (so `(0,0)` gives `0` and `(10,10)` gives
`10`), and the level is `low` exactly on `final ≤ 3.0`, `moderate` on
`(3.0, 6.0]`, `high` on `(6.0, 8.5]` and `critical` above `8.5`;
the boundary finals `3.0`, `3.01`, `8.5`, `8.51` land on
`low`, `moderate`, `high`, `critical` respectively. -/
theorem final_score_blend_and_levels :
    (∀ p w : ℚ, (calculate_final_stress_score p w).1 = p * 0.7 + w * 0.3) ∧
    (∀ p w : ℚ,
      ((calculate_final_stress_score p w).2 = "low" ↔
        (calculate_final_stress_score p w).1 ≤ 3.0) ∧
      ((calculate_final_stress_score p w).2 = "moderate" ↔
        3.0 < (calculate_final_stress_score p w).1 ∧
          (calculate_final_stress_score p w).1 ≤ 6.0) ∧
      ((calculate_final_stress_score p w).2 = "high" ↔
        6.0 < (calculate_final_stress_score p w).1 ∧
          (calculate_final_stress_score p w).1 ≤ 8.5) ∧
      ((calculate_final_stress_score p w).2 = "critical" ↔
        8.5 < (calculate_final_stress_score p w).1)) ∧
    calculate_final_stress_score 0 0 = (0, "low") ∧
    calculate_final_stress_score 10 10 = (10, "critical") ∧
    calculate_final_stress_score 3.0 3.0 = (3.0, "low") ∧
    calculate_final_stress_score 3.01 3.01 = (3.01, "moderate") ∧
    calculate_final_stress_score 8.5 8.5 = (8.5, "high") ∧
    calculate_final_stress_score 8.51 8.51 = (8.51, "critical") := by
  have hblend : ∀ p w : ℚ, (calculate_final_stress_score p w).1 = p * 0.7 + w * 0.3 :=
    fun p w => rfl
  have hlevels : ∀ p w : ℚ,
      ((calculate_final_stress_score p w).2 = "low" ↔
        (calculate_final_stress_score p w).1 ≤ 3.0) ∧
      ((calculate_final_stress_score p w).2 = "moderate" ↔
        3.0 < (calculate_final_stress_score p w).1 ∧
          (calculate_final_stress_score p w).1 ≤ 6.0) ∧
      ((calculate_final_stress_score p w).2 = "high" ↔
        6.0 < (calculate_final_stress_score p w).1 ∧
          (calculate_final_stress_score p w).1 ≤ 8.5) ∧
      ((calculate_final_stress_score p w).2 = "critical" ↔
        8.5 < (calculate_final_stress_score p w).1) := by
    intro p w
    dsimp only [calculate_final_stress_score]
    split_ifs with h1 h2 h3
    · refine ⟨iff_of_true rfl h1, iff_of_false (by simp) ?_, iff_of_false (by simp) ?_,
        iff_of_false (by simp) ?_⟩
      · rintro ⟨h, _⟩; linarith
      · rintro ⟨h, _⟩; linarith
      · intro h; linarith
    · push_neg at h1
      refine ⟨iff_of_false (by simp) ?_, iff_of_true rfl ⟨h1, h2⟩, iff_of_false (by simp) ?_,
        iff_of_false (by simp) ?_⟩
      · intro h; linarith
      · rintro ⟨h, _⟩; linarith
      · intro h; linarith
    · push_neg at h1 h2
      refine ⟨iff_of_false (by simp) ?_, iff_of_false (by simp) ?_, iff_of_true rfl ⟨h2, h3⟩,
        iff_of_false (by simp) ?_⟩
      · intro h; linarith
      · rintro ⟨_, h⟩; linarith
      · intro h; linarith
    · push_neg at h1 h2 h3
      refine ⟨iff_of_false (by simp) ?_, iff_of_false (by simp) ?_, iff_of_false (by simp) ?_,
        iff_of_true rfl h3⟩
      · intro h; linarith
      · rintro ⟨_, h⟩; linarith
      · rintro ⟨_, h⟩; linarith
  refine ⟨hblend, hlevels, ?_, ?_, ?_, ?_, ?_, ?_⟩ <;>
    · dsimp only [calculate_final_stress_score]
      norm_num

/-! ### PSS scoring (Claim C6) -/

lemma getD_mem_of_lt : ∀ (l : List Int) (i : Nat), i < l.length → l.getD i 0 ∈ l
  | a :: _, 0, _ => by simp
  | a :: l, i + 1, h => by
    rw [List.getD_cons_succ]
    exact List.mem_cons_of_mem a (getD_mem_of_lt l i (by simpa using h))

lemma enumFrom_map_sum (l : List Int) : ∀ (n : Nat) (f : Nat → Int → Int),
    ((l.enumFrom n).map (fun p => f p.1 p.2)).sum =
      ((List.range l.length).map (fun i => f (n + i) (l.getD i 0))).sum := by
  induction l with
  | nil => intro n f; simp
  | cons a l ih =>
    intro n f
    rw [List.enumFrom_cons]
    simp only [List.map_cons, List.sum_cons, List.length_cons]
    rw [ih (n + 1) f, List.range_succ_eq_map]
    simp only [List.map_cons, List.sum_cons, List.map_map, List.getD_cons_zero,
      Nat.add_zero]
    congr 1
    apply congrArg
    apply List.map_congr_left
    intro i _
    simp only [Function.comp_apply, List.getD_cons_succ]
    congr 1
    omega

lemma range_map_sum_bounds (g : Nat → Int) : ∀ n : Nat, (∀ i < n, 0 ≤ g i ∧ g i ≤ 4) →
    0 ≤ ((List.range n).map g).sum ∧ ((List.range n).map g).sum ≤ 4 * n := by
  intro n
  induction n with
  | zero => intro _; simp
  | succ n ih =>
    intro h
    have hn := h n (by omega)
    have ih2 := ih (fun i hi => h i (by omega))
    rw [List.range_succ, List.map_append, List.sum_append]
    simp only [List.map_cons, List.map_nil, List.sum_cons, List.sum_nil]
    push_cast
    omega

/-- Claim C6: `calculate_pss_score` rejects a wrong answer count and
out-of-range answers with a 400; on a valid sequence it returns the raw
sum in which the answers at indices 3, 4, 6, 7 contribute `4 - answer`
and all others contribute the answer itself, the raw total lies in
`[0, 40]`, and the normalised score is `(raw / 40) * 10`, in `[0, 10]`;
a positive-item answer of `0` contributes `4`. -/
theorem pss_score_spec :
    (∀ answers : List Int, answers.length ≠ 10 →
      calculate_pss_score answers = .error ⟨400, "Must provide exactly 10 answers"⟩) ∧
    (∀ answers : List Int, answers.length = 10 → (∃ a ∈ answers, a < 0 ∨ 4 < a) →
      calculate_pss_score answers = .error ⟨400, "Answers must be between 0 and 4"⟩) ∧
    (∀ answers : List Int, answers.length = 10 → (∀ a ∈ answers, 0 ≤ a ∧ a ≤ 4) →
      ∃ raw : Int, ∃ norm : ℚ,
        calculate_pss_score answers = .ok (raw, norm) ∧
        raw = ((List.range 10).map (fun i =>
          if i ∈ positiveQuestions then 4 - answers.getD i 0
          else answers.getD i 0)).sum ∧
        0 ≤ raw ∧ raw ≤ 40 ∧
        norm = ((raw : ℚ) / 40) * 10 ∧ 0 ≤ norm ∧ norm ≤ 10) ∧
    (∀ i ∈ positiveQuestions, pssContribution i 0 = 4) := by
  refine ⟨?_, ?_, ?_, by decide⟩
  · intro answers h
    unfold calculate_pss_score
    rw [if_pos h]
  · intro answers h10 hbad
    unfold calculate_pss_score
    rw [if_neg (by omega), if_pos]
    rw [List.any_eq_true]
    obtain ⟨a, ha, hout⟩ := hbad
    refine ⟨a, ha, ?_⟩
    simp only [decide_eq_true_eq]
    omega
  · intro answers h10 hgood
    have hval : ¬ (answers.any (fun a => decide (¬ (0 ≤ a ∧ a ≤ 4))) = true) := by
      rw [List.any_eq_true]
      rintro ⟨a, ha, hout⟩
      have := hgood a ha
      simp only [decide_eq_true_eq] at hout
      exact hout this
    have hbound : ∀ i, i < answers.length →
        0 ≤ pssContribution i (answers.getD i 0) ∧
          pssContribution i (answers.getD i 0) ≤ 4 := by
      intro i hi
      have := hgood _ (getD_mem_of_lt answers i hi)
      unfold pssContribution
      split_ifs <;> omega
    have hTr : ((answers.enum.map (fun p => pssContribution p.1 p.2)).sum) =
        ((List.range 10).map (fun i => pssContribution i (answers.getD i 0))).sum := by
      rw [show answers.enum = answers.enumFrom 0 from rfl,
        enumFrom_map_sum answers 0 pssContribution, h10]
      simp only [Nat.zero_add]
    have h0 : 0 ≤ ((answers.enum.map (fun p => pssContribution p.1 p.2)).sum) := by
      rw [hTr]
      exact (range_map_sum_bounds _ 10 (fun i hi => hbound i (by omega))).1
    have h40 : ((answers.enum.map (fun p => pssContribution p.1 p.2)).sum) ≤ 40 := by
      rw [hTr]
      have := (range_map_sum_bounds (fun i => pssContribution i (answers.getD i 0)) 10
        (fun i hi => hbound i (by omega))).2
      omega
    refine ⟨(answers.enum.map (fun p => pssContribution p.1 p.2)).sum, _, ?_, ?_, h0, h40,
      rfl, ?_, ?_⟩
    · unfold calculate_pss_score
      rw [if_neg (by omega), if_neg hval]
    · rw [hTr]
      apply congrArg
      apply List.map_congr_left
      intro i _
      rfl
    · have hq : (0 : ℚ) ≤
          (((answers.enum.map (fun p => pssContribution p.1 p.2)).sum : Int) : ℚ) := by
        exact_mod_cast h0
      positivity
    · have hq : (((answers.enum.map (fun p => pssContribution p.1 p.2)).sum : Int) : ℚ)
          ≤ 40 := by exact_mod_cast h40
      rw [div_mul_eq_mul_div, div_le_iff (by norm_num)]
      linarith

/-- Witness for C6: the valid branch at the all-zero answer sheet and the
two error branches at a short sheet and an out-of-range sheet. -/
theorem pss_score_spec_witness :
    (∃ raw : Int, ∃ norm : ℚ,
      calculate_pss_score (List.replicate 10 0) = .ok (raw, norm) ∧
      raw = ((List.range 10).map (fun i =>
        if i ∈ positiveQuestions then 4 - (List.replicate 10 (0 : Int)).getD i 0
        else (List.replicate 10 (0 : Int)).getD i 0)).sum ∧
      0 ≤ raw ∧ raw ≤ 40 ∧
      norm = ((raw : ℚ) / 40) * 10 ∧ 0 ≤ norm ∧ norm ≤ 10) ∧
    calculate_pss_score [] = .error ⟨400, "Must provide exactly 10 answers"⟩ ∧
    calculate_pss_score [5, 0, 0, 0, 0, 0, 0, 0, 0, 0] =
      .error ⟨400, "Answers must be between 0 and 4"⟩ := by
  refine ⟨pss_score_spec.2.2.1 (List.replicate 10 0) (by simp) ?_,
    pss_score_spec.1 [] (by simp),
    pss_score_spec.2.1 [5, 0, 0, 0, 0, 0, 0, 0, 0, 0] (by simp)
      ⟨5, by simp, Or.inr (by norm_num)⟩⟩
  intro a ha
  rw [List.eq_of_mem_replicate ha]
  omega

/-- Claim C10: in both assessment submission and sharing-preference
update, a supervisor caller gets `share_with_supervisor` forced to false,
an HR-manager caller gets both flags forced to false, and an employee
caller's requested values are stored unchanged. -/
theorem sharing_flags_by_role :
    (∀ (role : UserRole) (userId : Nat) (answers : List Int) (reqSup reqHr : Bool)
        (tasks : List Task) (now : Nat) (rec : StressScoreRec),
      submit_stress_assessment role userId answers reqSup reqHr tasks now = .ok rec →
      ((role = .supervisor →
        rec.shareWithSupervisor = some false ∧ rec.shareWithHr = some reqHr) ∧
       (role = .hr_manager →
        rec.shareWithSupervisor = some false ∧ rec.shareWithHr = some false) ∧
       (role = .employee →
        rec.shareWithSupervisor = some reqSup ∧ rec.shareWithHr = some reqHr))) ∧
    (∀ (role : UserRole) (reqSup reqHr : Option Bool) (s : StressScoreRec)
        (rec : StressScoreRec),
      update_sharing_preferences role reqSup reqHr (some s) = .ok rec →
      ((role = .supervisor →
        rec.shareWithSupervisor = some false ∧ rec.shareWithHr = reqHr) ∧
       (role = .hr_manager →
        rec.shareWithSupervisor = some false ∧ rec.shareWithHr = some false) ∧
       (role = .employee →
        rec.shareWithSupervisor = reqSup ∧ rec.shareWithHr = reqHr))) := by
  constructor
  · intro role userId answers reqSup reqHr tasks now rec hok
    unfold submit_stress_assessment at hok
    cases hpss : calculate_pss_score answers with
    | error e => rw [hpss] at hok; cases role <;> simp_all [bookerRole]
    | ok pr =>
      obtain ⟨ps, np⟩ := pr
      rw [hpss] at hok
      cases role <;> simp_all [bookerRole] <;> (subst hok; simp)
  · intro role reqSup reqHr s rec hok
    unfold update_sharing_preferences at hok
    cases role <;> simp_all [bookerRole] <;> (subst hok; simp)

/-- Witness for C10 at concrete inputs: an employee submission stores the
requested flags; an HR-manager update stores both flags false. -/
theorem sharing_flags_by_role_witness :
    (∀ rec : StressScoreRec,
      submit_stress_assessment .employee 1 (List.replicate 10 0) true true [] 0 = .ok rec →
      rec.shareWithSupervisor = some true ∧ rec.shareWithHr = some true) ∧
    (∀ rec : StressScoreRec,
      update_sharing_preferences .hr_manager (some true) (some true)
        (some ⟨1, 0, "low", 0, 0, 0, 0, some false, some false⟩) = .ok rec →
      rec.shareWithSupervisor = some false ∧ rec.shareWithHr = some false) := by
  constructor
  · intro rec hok
    exact (sharing_flags_by_role.1 .employee 1 (List.replicate 10 0) true true [] 0
      rec hok).2.2 rfl
  · intro rec hok
    exact (sharing_flags_by_role.2 .hr_manager (some true) (some true)
      ⟨1, 0, "low", 0, 0, 0, 0, some false, some false⟩ rec hok).2.1 rfl

/-! ### Slot integrity (Claim C2) -/

lemma pendingAtMostOne_map (db : Db) (f : Booking → Booking)
    (hf : ∀ r, (f r).status = BookingStatus.pending → f r = r)
    (h : pendingAtMostOne db) :
    pendingAtMostOne { db with bookings := db.bookings.map f } := by
  intro b1 hb1 b2 hb2 hp1 hp2 hc hd
  simp only [List.mem_map] at hb1 hb2
  obtain ⟨r1, hr1, rfl⟩ := hb1
  obtain ⟨r2, hr2, rfl⟩ := hb2
  have e1 := hf r1 hp1
  have e2 := hf r2 hp2
  rw [e1] at hp1 hc hd ⊢
  rw [e2] at hp2 hc hd ⊢
  exact h r1 hr1 r2 hr2 hp1 hp2 hc hd

lemma pendingAtMostOne_updateRow (db : Db) (bid : Nat) (g : Booking → Booking)
    (hg : ∀ r, (g r).status = BookingStatus.pending → g r = r)
    (h : pendingAtMostOne db) : pendingAtMostOne (updateRow db bid g) := by
  apply pendingAtMostOne_map db _ _ h
  intro r hr
  by_cases hid : r.id = bid
  · rw [if_pos hid] at hr ⊢
    exact hg r hr
  · rw [if_neg hid]

lemma pendingAtMostOne_insert (db : Db) (b : Booking)
    (hnew : b.status = BookingStatus.pending →
      ∀ r ∈ db.bookings, r.status = BookingStatus.pending →
        r.consultantId = b.consultantId → r.bookingDate = b.bookingDate → False)
    (h : pendingAtMostOne db) : pendingAtMostOne (insertBooking db b) := by
  intro b1 hb1 b2 hb2 hp1 hp2 hc hd
  unfold insertBooking at hb1 hb2
  simp only [List.mem_append, List.mem_singleton] at hb1 hb2
  rcases hb1 with hb1 | rfl <;> rcases hb2 with hb2 | rfl
  · exact h b1 hb1 b2 hb2 hp1 hp2 hc hd
  · exact (hnew hp2 b1 hb1 hp1 hc hd).elim
  · exact (hnew hp1 b2 hb2 hp2 hc.symm hd.symm).elim
  · rfl

lemma book_psychiatrist_preserves (db : Db) (u : UserRec) (pid d : Nat)
    (notes : Option String) (now : Nat) (p : Db × Nat)
    (hok : book_psychiatrist db u pid d notes now = .ok p)
    (h : pendingAtMostOne db) : pendingAtMostOne p.1 := by
  unfold book_psychiatrist at hok
  split_ifs at hok with h1 h2 h3 h4
  injection hok with h5
  subst h5
  apply pendingAtMostOne_insert _ _ _ h
  intro _ r hr hrp hcEq hdEq
  have h4n : ¬ ∃ x ∈ db.bookings, (x.consultantId == pid && x.bookingDate == d &&
      (x.status == BookingStatus.pending || x.status == BookingStatus.approved)) = true := by
    rw [← List.find?_isSome]
    simpa using h4
  exact h4n ⟨r, hr, by simp_all⟩

lemma book_psychiatrist_for_employee_preserves (db : Db) (u : UserRec)
    (eid pid d : Nat) (notes : Option String) (p : Db × Nat)
    (hok : book_psychiatrist_for_employee db u eid pid d notes = .ok p)
    (h : pendingAtMostOne db) : pendingAtMostOne p.1 := by
  unfold book_psychiatrist_for_employee at hok
  split_ifs at hok with h1 h2 h3 h4
  injection hok with h5
  subst h5
  apply pendingAtMostOne_insert _ _ _ h
  intro _ r hr hrp hcEq hdEq
  have h4n : ¬ ∃ x ∈ db.bookings, (x.consultantId == pid && x.bookingDate == d &&
      (x.status == BookingStatus.pending || x.status == BookingStatus.approved)) = true := by
    rw [← List.find?_isSome]
    simpa using h4
  exact h4n ⟨r, hr, by simp_all⟩

lemma book_consultation_preserves (db : Db) (u : UserRec) (cid d dur : Nat)
    (notes : Option String) (now : Nat) (p : Db × Nat)
    (hok : book_consultation db u cid d dur notes now = .ok p)
    (h : pendingAtMostOne db) : pendingAtMostOne p.1 := by
  unfold book_consultation at hok
  split_ifs at hok with h1 h2 h3 h4 h5
  injection hok with h6
  subst h6
  apply pendingAtMostOne_insert _ _ _ h
  intro _ r hr hrp hcEq hdEq
  have h5n : ¬ ∃ x ∈ db.bookings, (x.consultantId == cid && x.bookingDate == d &&
      x.status == BookingStatus.pending) = true := by
    rw [← List.find?_isSome]
    simpa using h5
  exact h5n ⟨r, hr, by simp_all⟩

lemma book_for_employee_preserves (db : Db) (u : UserRec) (eid cid d dur : Nat)
    (notes : Option String) (now : Nat) (p : Db × Nat)
    (hok : book_for_employee db u eid cid d dur notes now = .ok p)
    (h : pendingAtMostOne db) : pendingAtMostOne p.1 := by
  unfold book_for_employee at hok
  split_ifs at hok with h1 h2 h3 h4 h5 h6
  injection hok with h7
  subst h7
  apply pendingAtMostOne_insert _ _ _ h
  intro _ r hr hrp hcEq hdEq
  have h6n : ¬ ∃ x ∈ db.bookings, (x.consultantId == cid && x.bookingDate == d &&
      x.status == BookingStatus.pending) = true := by
    rw [← List.find?_isSome]
    simpa using h6
  exact h6n ⟨r, hr, by simp_all⟩

lemma approve_booking_preserves (db : Db) (u : UserRec) (bid : Nat)
    (reqStatus : String) (reqReason : Option String) (p : Db × Nat)
    (hok : approve_booking db u bid reqStatus reqReason = .ok p)
    (h : pendingAtMostOne db) : pendingAtMostOne p.1 := by
  unfold approve_booking at hok
  by_cases h1 : u.role ≠ UserRole.psychiatrist
  · rw [if_pos h1] at hok
    exact absurd hok (by simp)
  · rw [if_neg h1] at hok
    cases hcm : findConsultantByName db u.name with
    | none => rw [hcm] at hok; exact absurd hok (by simp)
    | some c =>
      rw [hcm] at hok
      dsimp only at hok
      cases hbm : db.bookings.find? (fun b => b.id == bid && b.consultantId == c.id) with
      | none => rw [hbm] at hok; exact absurd hok (by simp)
      | some b =>
        rw [hbm] at hok
        dsimp only at hok
        split_ifs at hok with h2 h3 h4 h5 <;>
          first
            | exact Except.noConfusion hok
            | (injection hok with h6
               subst h6
               apply pendingAtMostOne_updateRow _ _ _ (by intro r hr; simp at hr)
               apply pendingAtMostOne_map _ _ _ h
               intro r hr
               by_cases hcf : conflictsWith c.id b.bookingDate bid r
               · rw [if_pos hcf] at hr
                 simp at hr
               · rw [if_neg hcf])
            | (injection hok with h6
               subst h6
               exact pendingAtMostOne_updateRow _ _ _ (by intro r hr; simp at hr) h)

lemma cancel_psychiatrist_preserves (db : Db) (u : UserRec) (bid : Nat) (d2 : Db)
    (hok : cancel_psychiatrist_booking db u bid = .ok d2)
    (h : pendingAtMostOne db) : pendingAtMostOne d2 := by
  unfold cancel_psychiatrist_booking at hok
  by_cases h1 : ¬ bookerRole u.role
  · rw [if_pos h1] at hok
    exact absurd hok (by simp)
  · rw [if_neg h1] at hok
    cases hbm : db.bookings.find? (fun b => b.id == bid && b.employeeId == u.id) with
    | none => rw [hbm] at hok; exact absurd hok (by simp)
    | some b =>
      rw [hbm] at hok
      dsimp only at hok
      split_ifs at hok with h2 <;>
        first
          | exact Except.noConfusion hok
          | (injection hok with h3
             subst h3
             exact pendingAtMostOne_updateRow _ _ _ (by intro r hr; simp at hr) h)

lemma cancel_booking_preserves (db : Db) (u : UserRec) (bid now : Nat) (d2 : Db)
    (hok : cancel_booking db u bid now = .ok d2)
    (h : pendingAtMostOne db) : pendingAtMostOne d2 := by
  unfold cancel_booking at hok
  by_cases h1 : ¬ bookerRole u.role
  · rw [if_pos h1] at hok
    exact absurd hok (by simp)
  · rw [if_neg h1] at hok
    cases hbm : db.bookings.find? (fun b => b.id == bid && b.employeeId == u.id) with
    | none => rw [hbm] at hok; exact absurd hok (by simp)
    | some b =>
      rw [hbm] at hok
      dsimp only at hok
      split_ifs at hok with h2 <;>
        first
          | exact Except.noConfusion hok
          | (injection hok with h3
             subst h3
             exact pendingAtMostOne_updateRow _ _ _ (by intro r hr; simp at hr) h)

lemma complete_session_preserves (db : Db) (u : UserRec) (bid : Nat) (d2 : Db)
    (hok : complete_session db u bid = .ok d2)
    (h : pendingAtMostOne db) : pendingAtMostOne d2 := by
  unfold complete_session at hok
  by_cases h1 : u.role ≠ UserRole.psychiatrist
  · rw [if_pos h1] at hok
    exact absurd hok (by simp)
  · rw [if_neg h1] at hok
    cases hcm : findConsultantByName db u.name with
    | none => rw [hcm] at hok; exact absurd hok (by simp)
    | some c =>
      rw [hcm] at hok
      dsimp only at hok
      cases hbm : db.bookings.find? (fun b => b.id == bid && b.consultantId == c.id) with
      | none => rw [hbm] at hok; exact absurd hok (by simp)
      | some b =>
        rw [hbm] at hok
        dsimp only at hok
        split_ifs at hok with h2 <;>
          first
            | exact Except.noConfusion hok
            | (injection hok with h3
               subst h3
               exact pendingAtMostOne_updateRow _ _ _ (by intro r hr; simp at hr) h)

lemma applyOp_preserves (db : Db) (op : Op) (hop : op.isBookingUpdate = false)
    (h : pendingAtMostOne db) : pendingAtMostOne (applyOp db op) := by
  cases op with
  | psychBook uid pid d notes now =>
    simp only [applyOp]
    cases findUser db uid with
    | none => exact h
    | some u =>
      dsimp only
      cases hres : book_psychiatrist db u pid d notes now with
      | ok p => exact book_psychiatrist_preserves _ _ _ _ _ _ _ hres h
      | error e => exact h
  | psychBookForEmployee uid eid pid d notes =>
    simp only [applyOp]
    cases findUser db uid with
    | none => exact h
    | some u =>
      dsimp only
      cases hres : book_psychiatrist_for_employee db u eid pid d notes with
      | ok p => exact book_psychiatrist_for_employee_preserves _ _ _ _ _ _ _ hres h
      | error e => exact h
  | consultBook uid cid d dur notes now =>
    simp only [applyOp]
    cases findUser db uid with
    | none => exact h
    | some u =>
      dsimp only
      cases hres : book_consultation db u cid d dur notes now with
      | ok p => exact book_consultation_preserves _ _ _ _ _ _ _ _ hres h
      | error e => exact h
  | consultBookForEmployee uid eid cid d dur notes now =>
    simp only [applyOp]
    cases findUser db uid with
    | none => exact h
    | some u =>
      dsimp only
      cases hres : book_for_employee db u eid cid d dur notes now with
      | ok p => exact book_for_employee_preserves _ _ _ _ _ _ _ _ _ hres h
      | error e => exact h
  | approve uid bid st reason =>
    simp only [applyOp]
    cases findUser db uid with
    | none => exact h
    | some u =>
      dsimp only
      cases hres : approve_booking db u bid st reason with
      | ok p => exact approve_booking_preserves _ _ _ _ _ _ hres h
      | error e => exact h
  | psychUpdate uid bid nd nn => simp [Op.isBookingUpdate] at hop
  | consultUpdate uid bid nc nd ndur nn now => simp [Op.isBookingUpdate] at hop
  | psychCancel uid bid =>
    simp only [applyOp]
    cases findUser db uid with
    | none => exact h
    | some u =>
      dsimp only
      cases hres : cancel_psychiatrist_booking db u bid with
      | ok d2 => exact cancel_psychiatrist_preserves _ _ _ _ hres h
      | error e => exact h
  | consultCancel uid bid now =>
    simp only [applyOp]
    cases findUser db uid with
    | none => exact h
    | some u =>
      dsimp only
      cases hres : cancel_booking db u bid now with
      | ok d2 => exact cancel_booking_preserves _ _ _ _ _ hres h
      | error e => exact h
  | complete uid bid =>
    simp only [applyOp]
    cases findUser db uid with
    | none => exact h
    | some u =>
      dsimp only
      cases hres : complete_session db u bid with
      | ok d2 => exact complete_session_preserves _ _ _ _ hres h
      | error e => exact h

lemma applyOps_preserves : ∀ (ops : List Op) (db : Db),
    (∀ op ∈ ops, op.isBookingUpdate = false) →
    pendingAtMostOne db → pendingAtMostOne (applyOps db ops) := by
  intro ops
  induction ops with
  | nil => intro db _ h; exact h
  | cons op ops ih =>
    intro db hops h
    unfold applyOps
    rw [List.foldl_cons]
    exact ih (applyOp db op)
      (fun o ho => hops o (List.mem_cons_of_mem op ho))
      (applyOp_preserves db op (hops op (List.mem_cons_self op ops)) h)

/-- Claim C2 (amended): restricted to the status set {pending}, every
booking operation except the two booking-update endpoints preserves the
at-most-one-per-(consultant_id, booking_date) constraint, and every state
reached from a bookingless store by an update-free call sequence
satisfies it.  (The update endpoints can break it, and creation over an
approved or completed row breaks the wider {pending, approved, completed}
form.) -/
theorem booking_ops_preserve_pending_integrity :
    (∀ (db : Db) (op : Op), op.isBookingUpdate = false →
      pendingAtMostOne db → pendingAtMostOne (applyOp db op)) ∧
    (∀ (db0 : Db) (ops : List Op), db0.bookings = [] →
      (∀ op ∈ ops, op.isBookingUpdate = false) →
      pendingAtMostOne (applyOps db0 ops)) := by
  constructor
  · exact fun db op hop hInv => applyOp_preserves db op hop hInv
  · intro db0 ops h0 hops
    apply applyOps_preserves ops db0 hops
    intro b1 hb1
    rw [h0] at hb1
    exact absurd hb1 (List.not_mem_nil b1)

/-- The store used in the C2 scenarios: one employee, one psychiatrist
user with a matching consultant row, no bookings yet. -/
def c2db0 : Db :=
  { users := [⟨10, "Emp", .employee⟩, ⟨11, "Dr", .psychiatrist⟩],
    consultants := [⟨1, "Dr"⟩], availabilities := [], bookings := [],
    nextBookingId := 1 }

/-- Two booking requests for distinct slots of consultant 1. -/
def c2ops : List Op :=
  [Op.psychBook 10 1 2000 none 100, Op.psychBook 10 1 3000 none 100]

/-- Witness for C2 (amended) at a concrete store and call sequence. -/
theorem booking_ops_preserve_pending_integrity_witness :
    pendingAtMostOne (applyOp c2db0 (Op.psychBook 10 1 2000 none 100)) ∧
    pendingAtMostOne (applyOps c2db0 (c2ops ++ [Op.approve 11 1 "approved" none])) := by
  constructor
  · exact booking_ops_preserve_pending_integrity.1 c2db0 _ rfl (by decide)
  · exact booking_ops_preserve_pending_integrity.2 c2db0 _ rfl (by decide)

/-- Counterexample to C2 as stated: `update_psychiatrist_booking` runs no
conflict check, so moving the second pending request onto the first one's
slot yields two pending bookings for the same
`(consultant_id, booking_date)` — the integrity constraint is not
preserved by every operation. -/
theorem booking_update_breaks_pending_integrity :
    pendingAtMostOne (applyOps c2db0 c2ops) ∧
    ¬ pendingAtMostOne
        (applyOps c2db0 (c2ops ++ [Op.psychUpdate 10 2 (some 2000) none])) := by
  decide

/-! ### Conflict-resolving approval (Claim C1) -/

/-- Claim C1 (amended: the stored reason uses an ASCII hyphen, not an em
dash): approving a pending booking owned by the caller's consultant
record approves exactly that row, turns every other pending booking with
the same `(consultant_id, booking_date)` into a cancelled row whose
`rejection_reason` is the auto-cancel message, leaves all other rows
untouched, and returns the number of auto-cancelled conflicts. -/
theorem approve_resolves_conflicts (db : Db) (user : UserRec) (c : ConsultantRec)
    (b : Booking) (bid : Nat) (reqReason : Option String)
    (hrole : user.role = .psychiatrist)
    (hc : findConsultantByName db user.name = some c)
    (hfind : db.bookings.find? (fun r => r.id == bid && r.consultantId == c.id) = some b)
    (hpend : b.status = .pending) :
    approve_booking db user bid "approved" reqReason =
      .ok ({ db with bookings := db.bookings.map (fun r =>
          if conflictsWith c.id b.bookingDate bid r then
            { r with status := .cancelled, rejectionReason := some autoCancelReason }
          else if r.id = bid then { r with status := .approved }
          else r) },
        (db.bookings.filter (conflictsWith c.id b.bookingDate bid)).length) := by
  unfold approve_booking
  rw [if_neg (by simp [hrole]), hc]
  dsimp only
  rw [hfind]
  dsimp only
  rw [if_neg (by simp [hpend]), if_pos rfl]
  dsimp only [updateRow]
  have hmap : (db.bookings.map (fun r =>
      if conflictsWith c.id b.bookingDate bid r then
        { r with status := BookingStatus.cancelled,
                 rejectionReason := some autoCancelReason }
      else r)).map
        (fun r => if r.id = bid then { r with status := BookingStatus.approved } else r)
      = db.bookings.map (fun r =>
      if conflictsWith c.id b.bookingDate bid r then
        { r with status := BookingStatus.cancelled,
                 rejectionReason := some autoCancelReason }
      else if r.id = bid then { r with status := BookingStatus.approved } else r) := by
    rw [List.map_map]
    apply List.map_congr_left
    intro r _
    simp only [Function.comp_apply]
    by_cases hcf : conflictsWith c.id b.bookingDate bid r
    · rw [if_pos hcf, if_pos hcf]
      have hne : r.id ≠ bid := by
        unfold conflictsWith at hcf
        simp only [Bool.and_eq_true, bne_iff_ne] at hcf
        exact hcf.2
      rw [if_neg (by simpa using hne)]
    · rw [if_neg hcf, if_neg hcf]
  rw [hmap]

/-- The psychiatrist user of the C1 scenario. -/
def c1user : UserRec := ⟨11, "Dr", .psychiatrist⟩

/-- The C1 scenario: three pending requests for consultant 1 at the same
timestamp. -/
def c1db : Db :=
  { users := [⟨10, "Emp", .employee⟩, c1user],
    consultants := [⟨1, "Dr"⟩], availabilities := [],
    bookings :=
      [⟨1, 1, 10, 10, 5000, 30, .pending, none, none⟩,
       ⟨2, 1, 10, 10, 5000, 30, .pending, none, none⟩,
       ⟨3, 1, 10, 10, 5000, 30, .pending, none, none⟩],
    nextBookingId := 4 }

/-- Witness for C1: of the three pending requests at one slot, approving
the first leaves it approved, exactly the other two cancelled with the
auto-cancel reason populated, and reports 2 cancelled conflicts. -/
theorem approve_resolves_conflicts_witness :
    approve_booking c1db c1user 1 "approved" none =
      .ok ({ c1db with bookings :=
        [⟨1, 1, 10, 10, 5000, 30, .approved, none, none⟩,
         ⟨2, 1, 10, 10, 5000, 30, .cancelled, none, some autoCancelReason⟩,
         ⟨3, 1, 10, 10, 5000, 30, .cancelled, none, some autoCancelReason⟩] }, 2) := by
  have h := approve_resolves_conflicts c1db c1user ⟨1, "Dr"⟩
    ⟨1, 1, 10, 10, 5000, 30, .pending, none, none⟩ 1 none rfl (by decide) (by decide) rfl
  rw [h]
  rfl

/-- Counterexample to C1 as stated: the auto-cancelled rows carry a
populated rejection reason, but it is the ASCII-hyphen string, not the
em-dash string quoted in the specification. -/
theorem approve_reason_uses_hyphen_not_em_dash :
    (∃ p : Db × Nat, approve_booking c1db c1user 1 "approved" none = .ok p ∧
      ∃ r ∈ p.1.bookings, r.status = .cancelled ∧ r.rejectionReason.isSome ∧
        r.rejectionReason ≠ some
          "Automatically cancelled — another request was approved for this time slot") ∧
    autoCancelReason =
      "Automatically cancelled - another request was approved for this time slot" := by
  refine ⟨⟨({ c1db with bookings :=
      [⟨1, 1, 10, 10, 5000, 30, .approved, none, none⟩,
       ⟨2, 1, 10, 10, 5000, 30, .cancelled, none, some autoCancelReason⟩,
       ⟨3, 1, 10, 10, 5000, 30, .cancelled, none, some autoCancelReason⟩] }, 2),
    rfl, ⟨2, 1, 10, 10, 5000, 30, .cancelled, none, some autoCancelReason⟩,
    by decide, rfl, rfl, by decide⟩, rfl⟩

/-! ### Creation-time conflict checks (Claim C3) -/

lemma conflictFindPA (db : Db) (pid d : Nat) :
    (db.bookings.find? (fun b => b.consultantId == pid && b.bookingDate == d &&
      (b.status == BookingStatus.pending || b.status == BookingStatus.approved))).isSome
    ↔ ∃ b ∈ db.bookings, b.consultantId = pid ∧ b.bookingDate = d ∧
        (b.status = BookingStatus.pending ∨ b.status = BookingStatus.approved) := by
  rw [List.find?_isSome]
  constructor
  · rintro ⟨b, hb, hp⟩
    simp only [Bool.and_eq_true, beq_iff_eq, Bool.or_eq_true] at hp
    exact ⟨b, hb, hp.1.1, hp.1.2, hp.2⟩
  · rintro ⟨b, hb, h1, h2, h3⟩
    refine ⟨b, hb, ?_⟩
    simp only [Bool.and_eq_true, beq_iff_eq, Bool.or_eq_true]
    exact ⟨⟨h1, h2⟩, h3⟩

lemma conflictFindP (db : Db) (cid d : Nat) :
    (db.bookings.find? (fun b => b.consultantId == cid && b.bookingDate == d &&
      b.status == BookingStatus.pending)).isSome
    ↔ ∃ b ∈ db.bookings, b.consultantId = cid ∧ b.bookingDate = d ∧
        b.status = BookingStatus.pending := by
  rw [List.find?_isSome]
  constructor
  · rintro ⟨b, hb, hp⟩
    simp only [Bool.and_eq_true, beq_iff_eq] at hp
    exact ⟨b, hb, hp.1.1, hp.1.2, hp.2⟩
  · rintro ⟨b, hb, h1, h2, h3⟩
    refine ⟨b, hb, ?_⟩
    simp only [Bool.and_eq_true, beq_iff_eq]
    exact ⟨⟨h1, h2⟩, h3⟩

/-- Claim C3 (amended): the psychiatrist booking-creation endpoints fail
with 400 "This time slot is already booked" exactly when an existing
booking at the same `(consultant_id, booking_date)` is pending or
approved; the consultant booking-creation endpoints run the conflict
check against status pending only, so an approved booking at the slot
does not block creation there. -/
theorem creation_conflict_check :
    (∀ (db : Db) (u : UserRec) (pid d : Nat) (notes : Option String) (now : Nat)
        (cc : ConsultantRec),
      bookerRole u.role = true → findConsultant db pid = some cc → now < d →
      ((∃ b ∈ db.bookings, b.consultantId = pid ∧ b.bookingDate = d ∧
          (b.status = BookingStatus.pending ∨ b.status = BookingStatus.approved)) →
        book_psychiatrist db u pid d notes now =
          .error ⟨400, "This time slot is already booked"⟩) ∧
      ((¬ ∃ b ∈ db.bookings, b.consultantId = pid ∧ b.bookingDate = d ∧
          (b.status = BookingStatus.pending ∨ b.status = BookingStatus.approved)) →
        book_psychiatrist db u pid d notes now =
          .ok (insertBooking db
            ⟨db.nextBookingId, pid, u.id, u.id, d, 30, .pending, notes, none⟩,
            db.nextBookingId))) ∧
    (∀ (db : Db) (u : UserRec) (eid pid d : Nat) (notes : Option String)
        (ee : UserRec) (cc : ConsultantRec),
      (u.role = .supervisor ∨ u.role = .hr_manager) → findUser db eid = some ee →
      findConsultant db pid = some cc →
      ((∃ b ∈ db.bookings, b.consultantId = pid ∧ b.bookingDate = d ∧
          (b.status = BookingStatus.pending ∨ b.status = BookingStatus.approved)) →
        book_psychiatrist_for_employee db u eid pid d notes =
          .error ⟨400, "This time slot is already booked"⟩) ∧
      ((¬ ∃ b ∈ db.bookings, b.consultantId = pid ∧ b.bookingDate = d ∧
          (b.status = BookingStatus.pending ∨ b.status = BookingStatus.approved)) →
        book_psychiatrist_for_employee db u eid pid d notes =
          .ok (insertBooking db
            ⟨db.nextBookingId, pid, eid, u.id, d, 30, .pending, notes, none⟩,
            db.nextBookingId))) ∧
    (∀ (db : Db) (u : UserRec) (cid d dur : Nat) (notes : Option String) (now : Nat)
        (cc : ConsultantRec),
      bookerRole u.role = true → findConsultant db cid = some cc → now < d →
      availabilityCovers db cid d = true →
      ((∃ b ∈ db.bookings, b.consultantId = cid ∧ b.bookingDate = d ∧
          b.status = BookingStatus.pending) →
        book_consultation db u cid d dur notes now =
          .error ⟨400, "This time slot is already booked"⟩) ∧
      ((¬ ∃ b ∈ db.bookings, b.consultantId = cid ∧ b.bookingDate = d ∧
          b.status = BookingStatus.pending) →
        book_consultation db u cid d dur notes now =
          .ok (insertBooking db
            ⟨db.nextBookingId, cid, u.id, u.id, d, dur, .pending, notes, none⟩,
            db.nextBookingId))) ∧
    (∀ (db : Db) (u : UserRec) (eid cid d dur : Nat) (notes : Option String) (now : Nat)
        (ee : UserRec) (cc : ConsultantRec),
      (u.role = .supervisor ∨ u.role = .hr_manager) → findUser db eid = some ee →
      findConsultant db cid = some cc → now < d →
      availabilityCovers db cid d = true →
      ((∃ b ∈ db.bookings, b.consultantId = cid ∧ b.bookingDate = d ∧
          b.status = BookingStatus.pending) →
        book_for_employee db u eid cid d dur notes now =
          .error ⟨400, "This time slot is already booked"⟩) ∧
      ((¬ ∃ b ∈ db.bookings, b.consultantId = cid ∧ b.bookingDate = d ∧
          b.status = BookingStatus.pending) →
        book_for_employee db u eid cid d dur notes now =
          .ok (insertBooking db
            ⟨db.nextBookingId, cid, eid, u.id, d, dur, .pending, notes, none⟩,
            db.nextBookingId))) := by
  refine ⟨?_, ?_, ?_, ?_⟩
  · intro db u pid d notes now cc hrole hcons hnow
    constructor
    · intro hex
      unfold book_psychiatrist
      rw [if_neg (by simp [hrole]), if_neg (by simp [hcons]), if_neg (by omega),
        if_pos ((conflictFindPA db pid d).mpr hex)]
    · intro hnex
      unfold book_psychiatrist
      rw [if_neg (by simp [hrole]), if_neg (by simp [hcons]), if_neg (by omega),
        if_neg (fun hs => hnex ((conflictFindPA db pid d).mp hs))]
  · intro db u eid pid d notes ee cc hrole hemp hcons
    have hr : (u.role == UserRole.supervisor || u.role == UserRole.hr_manager) = true := by
      rcases hrole with h | h <;> simp [h]
    constructor
    · intro hex
      unfold book_psychiatrist_for_employee
      rw [if_neg (by simp [hr]), if_neg (by simp [hemp]), if_neg (by simp [hcons]),
        if_pos ((conflictFindPA db pid d).mpr hex)]
    · intro hnex
      unfold book_psychiatrist_for_employee
      rw [if_neg (by simp [hr]), if_neg (by simp [hemp]), if_neg (by simp [hcons]),
        if_neg (fun hs => hnex ((conflictFindPA db pid d).mp hs))]
  · intro db u cid d dur notes now cc hrole hcons hnow hav
    constructor
    · intro hex
      unfold book_consultation
      rw [if_neg (by simp [hrole]), if_neg (by simp [hcons]), if_neg (by omega),
        if_neg (by simp [hav]), if_pos ((conflictFindP db cid d).mpr hex)]
    · intro hnex
      unfold book_consultation
      rw [if_neg (by simp [hrole]), if_neg (by simp [hcons]), if_neg (by omega),
        if_neg (by simp [hav]), if_neg (fun hs => hnex ((conflictFindP db cid d).mp hs))]
  · intro db u eid cid d dur notes now ee cc hrole hemp hcons hnow hav
    have hr : (u.role == UserRole.supervisor || u.role == UserRole.hr_manager) = true := by
      rcases hrole with h | h <;> simp [h]
    constructor
    · intro hex
      unfold book_for_employee
      rw [if_neg (by simp [hr]), if_neg (by simp [hemp]), if_neg (by simp [hcons]),
        if_neg (by omega), if_neg (by simp [hav]),
        if_pos ((conflictFindP db cid d).mpr hex)]
    · intro hnex
      unfold book_for_employee
      rw [if_neg (by simp [hr]), if_neg (by simp [hemp]), if_neg (by simp [hcons]),
        if_neg (by omega), if_neg (by simp [hav]),
        if_neg (fun hs => hnex ((conflictFindP db cid d).mp hs))]

/-- The C3 store: an approved booking occupying (consultant 1, t = 5000)
and an availability window covering that time
(day 3, minute-of-day 680). -/
def c3db : Db :=
  { users := [⟨10, "Emp", .employee⟩], consultants := [⟨1, "C"⟩],
    availabilities := [⟨1, 3, 600, 720, true⟩],
    bookings := [⟨1, 1, 10, 10, 5000, 30, .approved, none, none⟩],
    nextBookingId := 2 }

/-- Witness for C3 at concrete inputs: a pending booking blocks the
psychiatrist surface; the consultant surface accepts a free slot. -/
theorem creation_conflict_check_witness :
    book_psychiatrist
        { c3db with bookings := [⟨1, 1, 10, 10, 5000, 30, .pending, none, none⟩] }
        ⟨10, "Emp", .employee⟩ 1 5000 none 100 =
      .error ⟨400, "This time slot is already booked"⟩ ∧
    book_consultation c3db ⟨10, "Emp", .employee⟩ 1 5030 60 none 100 =
      .ok (insertBooking c3db ⟨2, 1, 10, 10, 5030, 60, .pending, none, none⟩, 2) := by
  constructor
  · exact (creation_conflict_check.1
      { c3db with bookings := [⟨1, 1, 10, 10, 5000, 30, .pending, none, none⟩] }
      ⟨10, "Emp", .employee⟩ 1 5000 none 100 ⟨1, "C"⟩ rfl (by decide) (by omega)).1
      ⟨⟨1, 1, 10, 10, 5000, 30, .pending, none, none⟩, by decide, rfl, rfl, Or.inl rfl⟩
  · exact (creation_conflict_check.2.2.1 c3db ⟨10, "Emp", .employee⟩ 1 5030 60 none 100
      ⟨1, "C"⟩ rfl (by decide) (by omega) (by decide)).2 (by decide)

/-- Counterexample to C3 as stated: `book_consultation` checks only
pending bookings, so with an approved booking occupying the exact
`(consultant_id, booking_date)` the creation call succeeds and inserts a
new pending row instead of failing with a conflict error. -/
theorem consult_book_ignores_approved :
    (∃ b ∈ c3db.bookings, b.consultantId = 1 ∧ b.bookingDate = 5000 ∧
      b.status = BookingStatus.approved) ∧
    book_consultation c3db ⟨10, "Emp", .employee⟩ 1 5000 60 none 100 =
      .ok (insertBooking c3db ⟨2, 1, 10, 10, 5000, 60, .pending, none, none⟩, 2) := by
  exact ⟨⟨⟨1, 1, 10, 10, 5000, 30, .approved, none, none⟩, by decide, rfl, rfl, rfl⟩, rfl⟩

/-! ### Past-date validation at creation (Claim C8) -/

/-- Claim C8 (amended): `book_psychiatrist`, `book_consultation` and
`book_for_employee` reject a `booking_date <= now` with a 400 and create
nothing; `book_psychiatrist_for_employee` performs no past-date check at
all and succeeds (creating a pending row) for any date once its other
checks pass. -/
theorem creation_past_date_check :
    (∀ (db : Db) (u : UserRec) (pid d : Nat) (notes : Option String) (now : Nat)
        (cc : ConsultantRec),
      bookerRole u.role = true → findConsultant db pid = some cc → d ≤ now →
      book_psychiatrist db u pid d notes now =
        .error ⟨400, "Cannot book sessions in the past or current time"⟩) ∧
    (∀ (db : Db) (u : UserRec) (cid d dur : Nat) (notes : Option String) (now : Nat)
        (cc : ConsultantRec),
      bookerRole u.role = true → findConsultant db cid = some cc → d ≤ now →
      book_consultation db u cid d dur notes now =
        .error ⟨400, "Booking date must be in the future"⟩) ∧
    (∀ (db : Db) (u : UserRec) (eid cid d dur : Nat) (notes : Option String) (now : Nat)
        (ee : UserRec) (cc : ConsultantRec),
      (u.role = .supervisor ∨ u.role = .hr_manager) → findUser db eid = some ee →
      findConsultant db cid = some cc → d ≤ now →
      book_for_employee db u eid cid d dur notes now =
        .error ⟨400, "Booking date must be in the future"⟩) ∧
    (∀ (db : Db) (u : UserRec) (eid pid d : Nat) (notes : Option String)
        (ee : UserRec) (cc : ConsultantRec),
      (u.role = .supervisor ∨ u.role = .hr_manager) → findUser db eid = some ee →
      findConsultant db pid = some cc →
      (¬ ∃ b ∈ db.bookings, b.consultantId = pid ∧ b.bookingDate = d ∧
        (b.status = BookingStatus.pending ∨ b.status = BookingStatus.approved)) →
      book_psychiatrist_for_employee db u eid pid d notes =
        .ok (insertBooking db
          ⟨db.nextBookingId, pid, eid, u.id, d, 30, .pending, notes, none⟩,
          db.nextBookingId)) := by
  refine ⟨?_, ?_, ?_, ?_⟩
  · intro db u pid d notes now cc hrole hcons hpast
    unfold book_psychiatrist
    rw [if_neg (by simp [hrole]), if_neg (by simp [hcons]), if_pos hpast]
  · intro db u cid d dur notes now cc hrole hcons hpast
    unfold book_consultation
    rw [if_neg (by simp [hrole]), if_neg (by simp [hcons]), if_pos hpast]
  · intro db u eid cid d dur notes now ee cc hrole hemp hcons hpast
    have hr : (u.role == UserRole.supervisor || u.role == UserRole.hr_manager) = true := by
      rcases hrole with h | h <;> simp [h]
    unfold book_for_employee
    rw [if_neg (by simp [hr]), if_neg (by simp [hemp]), if_neg (by simp [hcons]),
      if_pos hpast]
  · intro db u eid pid d notes ee cc hrole hemp hcons hnex
    have hr : (u.role == UserRole.supervisor || u.role == UserRole.hr_manager) = true := by
      rcases hrole with h | h <;> simp [h]
    unfold book_psychiatrist_for_employee
    rw [if_neg (by simp [hr]), if_neg (by simp [hemp]), if_neg (by simp [hcons]),
      if_neg (fun hs => hnex ((conflictFindPA db pid d).mp hs))]

/-- The C8 store: a supervisor, an employee and a consultant. -/
def c8db : Db :=
  { users := [⟨10, "Emp", .employee⟩, ⟨20, "Sup", .supervisor⟩],
    consultants := [⟨1, "Dr"⟩], availabilities := [], bookings := [],
    nextBookingId := 1 }

/-- Witness for C8 at concrete inputs. -/
theorem creation_past_date_check_witness :
    book_psychiatrist c8db ⟨10, "Emp", .employee⟩ 1 50 none 100 =
      .error ⟨400, "Cannot book sessions in the past or current time"⟩ ∧
    book_psychiatrist_for_employee c8db ⟨20, "Sup", .supervisor⟩ 10 1 5000 none =
      .ok (insertBooking c8db ⟨1, 1, 10, 20, 5000, 30, .pending, none, none⟩, 1) := by
  constructor
  · exact creation_past_date_check.1 c8db ⟨10, "Emp", .employee⟩ 1 50 none 100 ⟨1, "Dr"⟩
      rfl (by decide) (by omega)
  · exact creation_past_date_check.2.2.2 c8db ⟨20, "Sup", .supervisor⟩ 10 1 5000 none
      ⟨10, "Emp", .employee⟩ ⟨1, "Dr"⟩ (Or.inl rfl) (by decide) (by decide) (by decide)

/-- Counterexample to C8 as stated: `book_psychiatrist_for_employee`
never consults the clock — booking an employee at timestamp 50 (in the
past for any call made at a later time, e.g. now = 100) succeeds and
creates a pending row instead of failing with a validation error. -/
theorem book_for_employee_accepts_past_dates :
    book_psychiatrist_for_employee c8db ⟨20, "Sup", .supervisor⟩ 10 1 50 none =
      .ok (insertBooking c8db ⟨1, 1, 10, 20, 50, 30, .pending, none, none⟩, 1) ∧
    (50 : Nat) ≤ 100 := by
  exact ⟨rfl, by omega⟩

/-! ### Cancellation guards (Claim C9) -/

/-- Claim C9 (amended): `cancel_psychiatrist_booking` succeeds on any
owned booking whose status is not completed — including rejected,
already-cancelled and past-dated ones — and fails only on completed
bookings; `cancel_booking` succeeds on any owned booking whose date is
still in the future — regardless of status — and fails only on past
dates; on success the status becomes cancelled. -/
theorem cancel_guards :
    (∀ (db : Db) (u : UserRec) (bid : Nat) (b : Booking),
      bookerRole u.role = true →
      db.bookings.find? (fun r => r.id == bid && r.employeeId == u.id) = some b →
      ((b.status = BookingStatus.completed →
        cancel_psychiatrist_booking db u bid =
          .error ⟨400, "Cannot cancel completed booking"⟩) ∧
       (b.status ≠ BookingStatus.completed →
        cancel_psychiatrist_booking db u bid =
          .ok (updateRow db bid (fun x => { x with status := .cancelled }))))) ∧
    (∀ (db : Db) (u : UserRec) (bid now : Nat) (b : Booking),
      bookerRole u.role = true →
      db.bookings.find? (fun r => r.id == bid && r.employeeId == u.id) = some b →
      ((b.bookingDate ≤ now →
        cancel_booking db u bid now = .error ⟨400, "Cannot cancel past bookings"⟩) ∧
       (now < b.bookingDate →
        cancel_booking db u bid now =
          .ok (updateRow db bid (fun x => { x with status := .cancelled }))))) := by
  constructor
  · intro db u bid b hrole hfind
    unfold cancel_psychiatrist_booking
    rw [if_neg (by simp [hrole]), hfind]
    dsimp only
    constructor
    · intro hst
      rw [if_pos hst]
    · intro hst
      rw [if_neg hst]
  · intro db u bid now b hrole hfind
    unfold cancel_booking
    rw [if_neg (by simp [hrole]), hfind]
    dsimp only
    constructor
    · intro hd
      rw [if_pos hd]
    · intro hd
      rw [if_neg (by omega)]

/-- The C9 store: one rejected booking with a past date, one approved
future booking. -/
def c9db : Db :=
  { users := [⟨10, "Emp", .employee⟩], consultants := [⟨1, "Dr"⟩],
    availabilities := [],
    bookings := [⟨1, 1, 10, 10, 200, 30, .rejected, none, none⟩,
                 ⟨2, 1, 10, 10, 9000, 30, .approved, none, none⟩],
    nextBookingId := 3 }

/-- Witness for C9 at concrete inputs: cancelling the approved future
booking succeeds through the consultant surface and the status becomes
cancelled. -/
theorem cancel_guards_witness :
    cancel_booking c9db ⟨10, "Emp", .employee⟩ 2 100 =
      .ok (updateRow c9db 2 (fun x => { x with status := .cancelled })) ∧
    cancel_psychiatrist_booking c9db ⟨10, "Emp", .employee⟩ 2 =
      .ok (updateRow c9db 2 (fun x => { x with status := .cancelled })) := by
  constructor
  · exact (cancel_guards.2 c9db ⟨10, "Emp", .employee⟩ 2 100
      ⟨2, 1, 10, 10, 9000, 30, .approved, none, none⟩ rfl (by decide)).2 (by norm_num)
  · exact (cancel_guards.1 c9db ⟨10, "Emp", .employee⟩ 2
      ⟨2, 1, 10, 10, 9000, 30, .approved, none, none⟩ rfl (by decide)).2 (by simp)

/-- Counterexample to C9 as stated: booking 1 is rejected (a terminal
status) and dated in the past, yet `cancel_psychiatrist_booking`
succeeds and turns it into a cancelled row. -/
theorem cancel_rejected_past_booking_succeeds :
    (∃ b ∈ c9db.bookings, b.id = 1 ∧ b.status = BookingStatus.rejected ∧
      b.bookingDate = 200) ∧
    cancel_psychiatrist_booking c9db ⟨10, "Emp", .employee⟩ 1 =
      .ok { c9db with bookings :=
        [⟨1, 1, 10, 10, 200, 30, .cancelled, none, none⟩,
         ⟨2, 1, 10, 10, 9000, 30, .approved, none, none⟩] } := by
  exact ⟨⟨⟨1, 1, 10, 10, 200, 30, .rejected, none, none⟩, by decide, rfl, rfl, rfl⟩, rfl⟩

/-! ### Available-times characterization (Claim C4) -/

lemma strideSlots_mem : ∀ (fuel c stop x : Nat), stop ≤ c + 30 * fuel →
    (x ∈ strideSlots fuel c stop ↔ ∃ k, x = c + 30 * k ∧ x + 30 ≤ stop) := by
  intro fuel
  induction fuel with
  | zero =>
    intro c stop x hf
    simp only [strideSlots, List.not_mem_nil, false_iff]
    rintro ⟨k, rfl, hle⟩
    omega
  | succ fuel ih =>
    intro c stop x hf
    unfold strideSlots
    by_cases h : c + 30 ≤ stop
    · rw [if_pos h]
      simp only [List.mem_cons]
      rw [ih (c + 30) stop x (by omega)]
      constructor
      · rintro (rfl | ⟨k, rfl, hk⟩)
        · exact ⟨0, by omega, by omega⟩
        · exact ⟨k + 1, by omega, by omega⟩
      · rintro ⟨k, rfl, hk⟩
        cases k with
        | zero => left; omega
        | succ k => right; exact ⟨k, by omega, by omega⟩
    · rw [if_neg h]
      simp only [List.not_mem_nil, false_iff]
      rintro ⟨k, rfl, hk⟩
      omega

lemma mem_consultantDayPendings (db : Db) (cid targetDate : Nat) (b : Booking) :
    b ∈ consultantDayPendings db cid targetDate ↔
      b ∈ db.bookings ∧ b.consultantId = cid ∧ b.status = BookingStatus.pending ∧
        dateOf b.bookingDate = targetDate := by
  unfold consultantDayPendings
  rw [List.mem_filter]
  simp only [Bool.and_eq_true, beq_iff_eq]
  tauto

lemma overlapsBooking_iff (s e : Nat) (b : Booking) :
    overlapsBooking s e b = true ↔
      s < b.bookingDate + b.durationMinutes ∧ b.bookingDate < e := by
  unfold overlapsBooking
  simp

/-- Claim C4 (amended): in `get_consultant_available_times`, a generated
30-minute slot is returned as available iff no booking of that consultant
dated that same calendar date **with status pending** overlaps it under
half-open interval overlap; approved and completed bookings are not
fetched there, and the psychiatrist surface uses a different
(start-time stride membership over pending/approved) exclusion
altogether. -/
theorem consultant_slot_available_iff (db : Db) (cid targetDate s e : Nat)
    (cc : ConsultantRec) (hcons : findConsultant db cid = some cc) :
    ((s, e) ∈ consultantSlots db cid targetDate ↔
      (∃ a ∈ db.availabilities, a.consultantId = cid ∧
        a.dayOfWeek = targetDate % 7 ∧ a.isAvailable = true ∧
        ∃ k, s = targetDate * 1440 + a.startTime + 30 * k ∧ e = s + 30 ∧
          e ≤ targetDate * 1440 + a.endTime) ∧
      (∀ b ∈ db.bookings, b.consultantId = cid → b.status = BookingStatus.pending →
        dateOf b.bookingDate = targetDate →
        ¬ (s < b.bookingDate + b.durationMinutes ∧ b.bookingDate < e))) ∧
    get_consultant_available_times db cid targetDate =
      .ok (consultantSlots db cid targetDate) := by
  refine ⟨?_, by unfold get_consultant_available_times; rw [if_neg (by simp [hcons])]⟩
  unfold consultantSlots
  rw [List.mem_flatMap]
  constructor
  · rintro ⟨a, ha, hmem⟩
    obtain ⟨haw, hap⟩ := List.mem_filter.mp ha
    simp only [Bool.and_eq_true, beq_iff_eq] at hap
    obtain ⟨s', hs', heq⟩ := List.mem_map.mp hmem
    obtain ⟨hsgen, hpred⟩ := List.mem_filter.mp hs'
    have heq1 : s' = s := congrArg Prod.fst heq
    have heq2 : s' + 30 = e := congrArg Prod.snd heq
    subst heq1
    obtain ⟨k, hk, hke⟩ := (strideSlots_mem _ _ _ _ (by omega)).mp hsgen
    constructor
    · exact ⟨a, haw, hap.1.1, hap.1.2, hap.2, k, hk, heq2.symm, by omega⟩
    · intro b hb hbc hbs hbd hover
      have hbf : b ∈ consultantDayPendings db cid targetDate :=
        (mem_consultantDayPendings db cid targetDate b).mpr ⟨hb, hbc, hbs, hbd⟩
      have hany := List.any_eq_false.mp (by simpa using hpred) b hbf
      rw [overlapsBooking_iff] at hany
      rw [← heq2] at hover
      exact hany hover
  · rintro ⟨⟨a, haw, hac, had, hava, k, hk, hke, hkend⟩, hnoover⟩
    refine ⟨a, List.mem_filter.mpr ⟨haw, by simp [hac, had, hava]⟩, ?_⟩
    subst hke
    apply List.mem_map.mpr
    refine ⟨s, ?_, rfl⟩
    apply List.mem_filter.mpr
    refine ⟨(strideSlots_mem _ _ _ _ (by omega)).mpr ⟨k, hk, by omega⟩, ?_⟩
    simp only [Bool.not_eq_eq_eq_not, Bool.not_true, List.any_eq_false]
    intro b hbf
    obtain ⟨hb, hbc, hbs, hbd⟩ := (mem_consultantDayPendings db cid targetDate b).mp hbf
    rw [overlapsBooking_iff]
    exact hnoover b hb hbc hbs hbd

/-- The C4 witness store: consultant 1, availability 09:00-10:00 on
weekday 3, and a pending booking at 09:00 of day 3 (absolute 4860). -/
def c4dbW : Db :=
  { users := [], consultants := [⟨1, "C"⟩],
    availabilities := [⟨1, 3, 540, 600, true⟩],
    bookings := [⟨1, 1, 10, 10, 4860, 30, .pending, none, none⟩],
    nextBookingId := 2 }

/-- Witness for C4: with a pending booking on the first slot of the
window, the second slot (09:30-10:00) is listed and the first is not. -/
theorem consultant_slot_available_iff_witness :
    (4890, 4920) ∈ consultantSlots c4dbW 1 3 ∧
    (4860, 4890) ∉ consultantSlots c4dbW 1 3 := by
  constructor
  · apply (consultant_slot_available_iff c4dbW 1 3 4890 4920 ⟨1, "C"⟩ (by decide)).1.mpr
    refine ⟨⟨⟨1, 3, 540, 600, true⟩, by decide, rfl, rfl, rfl, 1, by decide, rfl,
      by decide⟩, ?_⟩
    intro b hb hbc hbs hbd
    have hbv : b = ⟨1, 1, 10, 10, 4860, 30, .pending, none, none⟩ := by
      simpa [c4dbW] using hb
    subst hbv
    simp
  · intro hmem
    have h := (consultant_slot_available_iff c4dbW 1 3 4860 4890 ⟨1, "C"⟩
      (by decide)).1.mp hmem
    have := h.2 ⟨1, 1, 10, 10, 4860, 30, .pending, none, none⟩ (by decide) rfl rfl rfl
    exact this (by decide)

/-- The consultant-surface counterexample store: an approved booking
occupies the 09:00 slot of day 3. -/
def c4dbC : Db :=
  { users := [], consultants := [⟨1, "C"⟩],
    availabilities := [⟨1, 3, 540, 600, true⟩],
    bookings := [⟨1, 1, 10, 10, 4860, 30, .approved, none, none⟩],
    nextBookingId := 2 }

/-- The psychiatrist-surface counterexample store: a pending booking at
09:15 of day 3 (absolute 4875), overlapping both 09:00 and 09:30 slots. -/
def c4dbP : Db :=
  { users := [], consultants := [⟨1, "P"⟩],
    availabilities := [⟨1, 3, 540, 600, true⟩],
    bookings := [⟨1, 1, 10, 10, 4875, 30, .pending, none, none⟩],
    nextBookingId := 2 }

/-- Counterexample to C4 as stated: on the consultant surface a slot
overlapped by an **approved** booking is still returned (only pending
bookings are fetched), and on the psychiatrist surface a slot half-open-
overlapped by a pending booking at 09:15 is still returned because that
surface only excludes slots whose start time equals a 30-minute stride
point of a booking. -/
theorem available_times_ignore_claimed_overlaps :
    ((4860, 4890) ∈ consultantSlots c4dbC 1 3 ∧
      ∃ b ∈ c4dbC.bookings, b.consultantId = 1 ∧ dateOf b.bookingDate = 3 ∧
        b.status = BookingStatus.approved ∧
        4860 < b.bookingDate + b.durationMinutes ∧ b.bookingDate < 4890) ∧
    (540 ∈ psychiatristSlots c4dbP 1 3 ∧
      ∃ b ∈ c4dbP.bookings, b.consultantId = 1 ∧ dateOf b.bookingDate = 3 ∧
        b.status = BookingStatus.pending ∧
        3 * 1440 + 540 < b.bookingDate + b.durationMinutes ∧
        b.bookingDate < 3 * 1440 + 570) := by
  decide

end MSWD
